import Mathlib

/-!
Verification of the Mp3TagData library (ID3v2/APEv2 MP3 tag codec and
mutation engine) against its natural-language specification.

The C++ sources are shallowly embedded: raw byte buffers become `List Nat`
(each element one byte), the casted-to struct overlays (`ID3v2FileHeader`,
`ID3v2FrameHdr`, `ID3v2TextFrame`, `ID3v2CommentFrame`) become accessor
functions reading bytes at the documented offsets, the `Mp3TagData` class
becomes a state structure with pure state-transformer operations, and the
fallible file I/O collaborator becomes explicit oracle booleans plus the
file contents as a byte list.  All C++ `assert`s are modelled as no-ops
(release-build semantics).  Reads that the C++ performs through raw
pointers beyond the end of a buffer are modelled by an explicit `junk`
valuation `Nat → Nat` giving the bytes that happen to sit in memory past
the buffer.
-/

/-! ## Integer codec (ReadID3Int / WriteID3Int, src/ID3v2Frames.h lines 48-68)

`ReadID3Int<7>` = `Util::PackBits<7> ∘ Util::ToBigEndian`: the four wire
bytes each contribute their low 7 bits of a 28-bit value, most significant
wire byte first.  `ReadID3Int<8>` is a plain 32-bit big-endian decode.
`Util.h` is an external collaborator repository; the bit-packing semantics
is modelled from the spec (section 4.1) at the byte level: the `u32`
argument is represented by its four wire-order bytes. -/

/-- Synchsafe (7-bit-per-byte) decode of four wire-order bytes,
mirroring `ReadID3Int<7>` from src/ID3v2Frames.h. -/
def readID3Int7 (b0 b1 b2 b3 : Nat) : Nat :=
  b0 % 128 * 2 ^ 21 + b1 % 128 * 2 ^ 14 + b2 % 128 * 2 ^ 7 + b3 % 128

/-- Plain big-endian decode of four wire-order bytes, mirroring
`ReadID3Int<8>` from src/ID3v2Frames.h. -/
def readID3Int8 (b0 b1 b2 b3 : Nat) : Nat :=
  b0 % 256 * 2 ^ 24 + b1 % 256 * 2 ^ 16 + b2 % 256 * 2 ^ 8 + b3 % 256

/-- Synchsafe (7-bit-per-byte) encode of a native integer into four
wire-order bytes, mirroring `WriteID3Int<7>` from src/ID3v2Frames.h.
Values needing more than 28 bits are truncated, matching the
wrapped/truncated encoding the spec accepts for oversized values. -/
def writeID3Int7 (v : Nat) : List Nat :=
  [v / 2 ^ 21 % 128, v / 2 ^ 14 % 128, v / 2 ^ 7 % 128, v % 128]

/-- Plain big-endian encode of a native integer into four wire-order
bytes, mirroring `WriteID3Int<8>` from src/ID3v2Frames.h. -/
def writeID3Int8 (v : Nat) : List Nat :=
  [v / 2 ^ 24 % 256, v / 2 ^ 16 % 256, v / 2 ^ 8 % 256, v % 256]

/-- Decode a 4-byte list (wire order) as a synchsafe integer. -/
def readID3Int7L (l : List Nat) : Nat :=
  readID3Int7 (l.getD 0 0) (l.getD 1 0) (l.getD 2 0) (l.getD 3 0)

/-- Decode a 4-byte list (wire order) as a big-endian integer. -/
def readID3Int8L (l : List Nat) : Nat :=
  readID3Int8 (l.getD 0 0) (l.getD 1 0) (l.getD 2 0) (l.getD 3 0)

/-! ## Frame types and frame IDs (src/Mp3BaseTagData.h) -/

/-- The `Mp3FrameType` enum from src/Mp3BaseTagData.h. -/
inductive Mp3FrameType where
  | none | title | subtitle | genre | artist | album | composer | orchestra
  | origArtist | year | origYear | trackNum | beatsPerMinute | duration
  | key | conductor | language | mood | comment
deriving DecidableEq, Repr

/-- The frozen `kMp3FrameID` map from src/Mp3BaseTagData.h, as ASCII byte
lists ("TIT2" = [84,73,84,50], ...). -/
def frameTypeID : Mp3FrameType → List Nat
  | .none => []
  | .title => [84, 73, 84, 50]
  | .subtitle => [84, 73, 84, 51]
  | .genre => [84, 67, 79, 78]
  | .artist => [84, 80, 69, 49]
  | .album => [84, 65, 76, 66]
  | .composer => [84, 67, 79, 77]
  | .orchestra => [84, 80, 69, 50]
  | .origArtist => [84, 79, 80, 69]
  | .year => [84, 89, 69, 82]
  | .origYear => [84, 79, 82, 89]
  | .trackNum => [84, 82, 67, 75]
  | .beatsPerMinute => [84, 66, 80, 77]
  | .duration => [84, 76, 69, 78]
  | .key => [84, 75, 69, 89]
  | .conductor => [84, 80, 69, 51]
  | .language => [84, 76, 65, 78]
  | .mood => [84, 77, 79, 79]
  | .comment => [67, 79, 77, 77]

/-- `Mp3BaseTagData::IsTextFrame(Mp3FrameType)`: the mapped frame ID
starts with 'T' (84). -/
def isTextFrameType (t : Mp3FrameType) : Bool :=
  (frameTypeID t).getD 0 0 == 84

/-! ## Frame layout accessors (src/ID3v2Frames.h)

A raw frame is a byte list: frame ID at offsets 0-3, the 4-byte
version-encoded size at offsets 4-7, status/format bytes at 8-9, payload
from offset 10 (`sizeof(ID3v2FrameHdr)` = 10). -/

/-- The 10-byte `sizeof(ID3v2FrameHdr)`. -/
def frameHeaderSize : Nat := 10

/-- `ID3v2FrameHdr::GetSize`: version 3 uses the plain big-endian decode,
versions 4+ the synchsafe decode, of bytes 4-7 of the frame. -/
def frameSizeOf (ver : Nat) (data : List Nat) : Nat :=
  if ver = 3 then
    readID3Int8 (data.getD 4 0) (data.getD 5 0) (data.getD 6 0) (data.getD 7 0)
  else
    readID3Int7 (data.getD 4 0) (data.getD 5 0) (data.getD 6 0) (data.getD 7 0)

/-- The 4-byte wire encoding of a frame size, per major version
(`ID3v2FrameHdr::SetHeader`). -/
def encodeFrameSize (ver n : Nat) : List Nat :=
  if ver = 3 then writeID3Int8 n else writeID3Int7 n

/-- `Mp3TagData::GetFrameBytes`: header size plus the declared payload
size. -/
def getFrameBytes (ver : Nat) (data : List Nat) : Nat :=
  frameHeaderSize + frameSizeOf ver data

/-- `ID3v2FrameHdr::GetTextBytes` (src/ID3v2Frames.h lines 290-314):
`textBytes = sizeof(ID3v2FrameHdr) + frameSize` in `uint32_t` arithmetic
(wrapping mod 2^32); if the text-start offset exceeds that, the result is
0 (malformed frame), else the difference. -/
def getTextBytes (frameSize offset : Nat) : Nat :=
  let textBytes := (frameHeaderSize + frameSize) % 2 ^ 32
  let offsetU32 := offset % 2 ^ 32
  if offsetU32 > textBytes then 0 else textBytes - offsetU32

/-- Strip trailing NUL bytes (`StrUtil::ToTrimmedTrailing(value, "\0")`). -/
def rstrip0 (l : List Nat) : List Nat :=
  (l.reverse.dropWhile (fun b => b == 0)).reverse

/-- Modelled from the spec: the external collaborator
`StringUtil::GetUtf8`, which converts UTF-16 code units to UTF-8 bytes
(spec section 4.2, wide strings are "converted to UTF-8 for the
normalized in-memory representation").  Basic-multilingual-plane encoding
without surrogate-pair handling; no claim exercises this path. -/
def getUtf8OfUnits (units : List Nat) : List Nat :=
  units.flatMap (fun u =>
    if u < 128 then [u]
    else if u < 2048 then [192 + u / 64, 128 + u % 64]
    else [224 + u / 4096, 128 + u / 64 % 64, 128 + u % 64])

/-- `ID3v2String::GetTextWide` byte pairs as little-endian UTF-16 code
units (`wchar_t` on the source platform is 2 bytes, little-endian). -/
def readUtf16Units : List Nat → Nat → List Nat
  | _, 0 => []
  | b0 :: b1 :: rest, n + 1 => (b0 % 256 + b1 % 256 * 256) :: readUtf16Units rest n
  | [b0], _ + 1 => [b0 % 256]
  | [], _ + 1 => []

/-- `ID3v2TextFrame::GetText`: byte 10 is the text encoding; the string
starts at offset 11 (narrow) or 13 (wide, after the 2-byte BOM);
`GetTextBytes` bounds the read; trailing NULs are stripped. -/
def textFrameGetText (ver : Nat) (data : List Nat) : List Nat :=
  let enc := data.getD 10 0
  let isWide := enc == 1 || enc == 2
  let offset := if isWide then 13 else 11
  let byteCount := getTextBytes (frameSizeOf ver data) offset
  if isWide then
    let charCount := byteCount / 2
    rstrip0 (getUtf8OfUnits (readUtf16Units (data.drop 13) charCount))
  else
    rstrip0 ((data.drop 11).take byteCount)

/-- `ID3v2CommentFrame::GetText`: byte 10 is the encoding, bytes 11-13
the language; the description+comment string starts at offset 14 (narrow)
or 16 (wide, after the BOM).  The comment text is what follows the first
NUL terminator of the description; trailing NULs are stripped.  When no
terminator occurs within the declared extent the remainder is empty. -/
def commentFrameGetText (ver : Nat) (data : List Nat) : List Nat :=
  let enc := data.getD 10 0
  let isWide := enc == 1 || enc == 2
  let offset := if isWide then 16 else 14
  let byteCount := getTextBytes (frameSizeOf ver data) offset
  if isWide then
    let charCount := byteCount / 2
    let units := readUtf16Units (data.drop 14) charCount
    let idx := units.findIdx (fun u => u == 0)
    rstrip0 (getUtf8OfUnits ((units.drop (idx + 1)).drop 1))
  else
    let charCount := byteCount
    let descPlusComment := (data.drop 14).take charCount
    let idx := descPlusComment.findIdx (fun b => b == 0)
    rstrip0 (descPlusComment.drop (idx + 1))

/-- `ID3v2TextFrame::GetFrameSize`: `sizeof(ID3v2TextFrame)` (15) minus
`sizeof(ID3v2String)` (4) plus the text length — i.e. 10-byte header +
encoding byte + text. -/
def textFrameGetFrameSize (s : List Nat) : Nat :=
  15 - 4 + s.length

/-- `ID3v2CommentFrame::GetFrameSize`: `sizeof(ID3v2CommentFrame)` (18)
minus `sizeof(ID3v2String)` (4) plus one NUL for the empty description
plus the comment length. -/
def commentFrameGetFrameSize (s : List Nat) : Nat :=
  18 - 4 + 1 + s.length

/-- The bytes produced by `Mp3TagData::SetText` for one text frame:
`SetHeader(frameID, sizeAlloc - 10, ver)` (zeroed status/format bytes)
followed by `ID3v2TextFrame::SetText` (ANSI encoding byte 0, then the
raw text bytes). -/
def buildTextFrame (t : Mp3FrameType) (ver : Nat) (s : List Nat) : List Nat :=
  frameTypeID t ++ encodeFrameSize ver (textFrameGetFrameSize s - frameHeaderSize)
    ++ [0, 0] ++ 0 :: s

/-- The bytes produced by `Mp3TagData::SetComment` for one comment frame:
"COMM" header, encoded size, zeroed status/format bytes, ANSI encoding
byte, "eng" language, single-NUL empty description, comment text. -/
def buildCommentFrame (ver : Nat) (s : List Nat) : List Nat :=
  [67, 79, 77, 77] ++ encodeFrameSize ver (commentFrameGetFrameSize s - frameHeaderSize)
    ++ [0, 0] ++ [0] ++ [101, 110, 103] ++ 0 :: s

/-! ## The ID3 frame manager (`Mp3TagData::ID3Frame`, src/Mp3TagData.h) -/

/-- `Mp3TagData::ID3Frame`: `rawFrame` is the original slice of the loaded
buffer ([] models the null pointer of a newly created frame), `newFrame`
is the replacement buffer whose length encodes the frame state
(0 = unmodified, 1 = flagged for delete, >1 = replaced). -/
structure ID3Frame where
  rawFrame : List Nat
  newFrame : List Nat
deriving DecidableEq, Repr

/-- The default/empty frame (`ID3Frame{}`). -/
def emptyID3Frame : ID3Frame := ⟨[], []⟩

/-- `std::vector::resize` on a byte vector: keep a prefix, zero-fill any
extension. -/
def resizeList (l : List Nat) (n : Nat) : List Nat :=
  l.take n ++ List.replicate (n - l.length) 0

/-- `ID3Frame::GetData` (const): the original bytes unless the frame was
replaced (`newFrame.size() > 1`). -/
def ID3Frame.getData (f : ID3Frame) : List Nat :=
  match f.newFrame.length with
  | 0 => f.rawFrame
  | 1 => f.rawFrame
  | _ + 2 => f.newFrame

/-- `ID3Frame::GetFrameID`: first four bytes of the relevant buffer, or
the sentinel "DEL " for a frame flagged for delete. -/
def ID3Frame.frameIDBytes (f : ID3Frame) : List Nat :=
  match f.newFrame.length with
  | 0 => [f.rawFrame.getD 0 0, f.rawFrame.getD 1 0, f.rawFrame.getD 2 0, f.rawFrame.getD 3 0]
  | 1 => [68, 69, 76, 32]
  | _ + 2 => [f.newFrame.getD 0 0, f.newFrame.getD 1 0, f.newFrame.getD 2 0, f.newFrame.getD 3 0]

/-- `ID3Frame::IsTextFrame`: the first data byte is 'T'. -/
def ID3Frame.isTextFrame (f : ID3Frame) : Bool :=
  f.getData.getD 0 0 == 84

/-- `ID3Frame::IsFrameID`. -/
def ID3Frame.isFrameID (f : ID3Frame) (t : Mp3FrameType) : Bool :=
  f.frameIDBytes == frameTypeID t

/-- `ID3Frame::IsCommentFrame`. -/
def ID3Frame.isCommentFrame (f : ID3Frame) : Bool :=
  f.isFrameID .comment

/-- `ID3Frame::FlagToDelete`: `newFrame.resize(1)`. -/
def ID3Frame.flagToDelete (f : ID3Frame) : ID3Frame :=
  { f with newFrame := resizeList f.newFrame 1 }

/-- `ID3Frame::IsDirty`. -/
def ID3Frame.isDirtyFrame (f : ID3Frame) : Bool :=
  decide (f.newFrame.length > 0) && !(f.newFrame.length == 1)

/-- `ID3Frame::GetWriteBytes`: bytes this frame contributes to a write —
the original on-disk extent if unmodified, 0 if flagged for delete, the
replacement buffer size otherwise. -/
def ID3Frame.getWriteBytes (ver : Nat) (f : ID3Frame) : Nat :=
  match f.newFrame.length with
  | 0 => getFrameBytes ver f.rawFrame
  | 1 => 0
  | n + 2 => n + 2

/-- The bytes this frame contributes to `Mp3TagData::Write`'s output
(the C++ writes `GetWriteBytes` bytes starting at `GetData()`). -/
def ID3Frame.writeData (f : ID3Frame) : List Nat :=
  match f.newFrame.length with
  | 0 => f.rawFrame
  | 1 => []
  | _ + 2 => f.newFrame

/-! ## The ID3v2 file header (`ID3v2FileHeader`, src/ID3v2Frames.h lines 90-149) -/

/-- `ID3v2FileHeader`: 3 signature bytes, major/minor version, flags and
the 4 wire bytes of the synchsafe size, exactly the packed 10-byte
on-disk layout. -/
structure ID3v2FileHeader where
  i0 : Nat
  i1 : Nat
  i2 : Nat
  majorVersion : Nat
  minorVersion : Nat
  flags : Nat
  z0 : Nat
  z1 : Nat
  z2 : Nat
  z3 : Nat
deriving DecidableEq, Repr

/-- `ID3v2FileHeader::GetSize`: synchsafe decode of the stored size. -/
def headerGetSize (h : ID3v2FileHeader) : Nat :=
  readID3Int7 h.z0 h.z1 h.z2 h.z3

/-- `ID3v2FileHeader::SetSize`: synchsafe encode of the new size. -/
def headerSetSize (h : ID3v2FileHeader) (n : Nat) : ID3v2FileHeader :=
  { h with
    z0 := (writeID3Int7 n).getD 0 0
    z1 := (writeID3Int7 n).getD 1 0
    z2 := (writeID3Int7 n).getD 2 0
    z3 := (writeID3Int7 n).getD 3 0 }

/-- The 10 on-disk bytes of the header, in file order. -/
def headerBytes (h : ID3v2FileHeader) : List Nat :=
  [h.i0, h.i1, h.i2, h.majorVersion, h.minorVersion, h.flags, h.z0, h.z1, h.z2, h.z3]

/-- `Mp3TagData::IsValidFileHeader` (src/Mp3TagData.cpp lines 322-349):
signature must be "ID3" (73,68,51); major version not < 3 and not 0xFF,
minor version not 0xFF; the extended (bit 6), experimental (bit 5) and
remaining (bits 0-3) flag bits must all be clear. -/
def isValidFileHeader (h : ID3v2FileHeader) : Bool :=
  (h.i0 == 73 && h.i1 == 68 && h.i2 == 51) &&
  !(decide (h.majorVersion < 3) || h.majorVersion == 255 || h.minorVersion == 255) &&
  (h.flags &&& 64 == 0 && h.flags &&& 32 == 0 && h.flags &&& 15 == 0)

/-! ## The tag store state (`Mp3TagData`, src/Mp3TagData.h lines 209-222) -/

/-- The mutable state of one `Mp3TagData` instance: loaded file header,
recorded audio offset, the raw ID3 frame-section buffer, the frame table
and its two derived position indices, and the dirty bit. -/
structure Mp3TagData where
  fileHeader : ID3v2FileHeader
  audioBufferOffset : Nat
  id3FrameBuffer : List Nat
  frames : List ID3Frame
  textFrames : List Nat
  commentFrames : List Nat
  isDirty : Bool
deriving DecidableEq, Repr

/-- `Mp3TagData::GetTextFrameReferencePos`: first position in the text
index whose frame has the requested frame ID (`none` models
`kInvalidFramePos`). -/
def Mp3TagData.getTextFrameReferencePos (st : Mp3TagData) (t : Mp3FrameType) : Option Nat :=
  st.textFrames.find? (fun p => (st.frames.getD p emptyID3Frame).isFrameID t)

/-- `Mp3TagData::GetText`: decode the located text frame, or the empty
string when the frame type is absent. -/
def Mp3TagData.getText (st : Mp3TagData) (t : Mp3FrameType) : List Nat :=
  match st.getTextFrameReferencePos t with
  | none => []
  | some p =>
    textFrameGetText st.fileHeader.majorVersion (st.frames.getD p emptyID3Frame).getData

/-- `Mp3TagData::DeleteTextFrame` (src/Mp3TagData.cpp lines 588-599):
no-op when absent; otherwise flag the frame for delete, remove its
position from the text index and mark the store dirty. -/
def Mp3TagData.deleteTextFrame (st : Mp3TagData) (t : Mp3FrameType) : Mp3TagData :=
  match st.getTextFrameReferencePos t with
  | none => st
  | some p =>
    { st with
      frames := st.frames.set p (st.frames.getD p emptyID3Frame).flagToDelete
      textFrames := st.textFrames.erase p
      isDirty := true }

/-- `Mp3TagData::SetText` (src/Mp3TagData.cpp lines 163-193): empty text
deletes the frame; otherwise replace the existing frame of that type, or
append a new frame (registering it in the text index), with the bytes of
`buildTextFrame`. -/
def Mp3TagData.setText (st : Mp3TagData) (t : Mp3FrameType) (s : List Nat) : Mp3TagData :=
  if s.length = 0 then st.deleteTextFrame t
  else
    match st.getTextFrameReferencePos t with
    | some p =>
      { st with
        frames := st.frames.set p
          { st.frames.getD p emptyID3Frame with
            newFrame := buildTextFrame t st.fileHeader.majorVersion s }
        isDirty := true }
    | none =>
      let p := st.frames.length
      { st with
        frames := (st.frames ++ [emptyID3Frame]).set p
          { emptyID3Frame with newFrame := buildTextFrame t st.fileHeader.majorVersion s }
        textFrames := st.textFrames ++ [p]
        isDirty := true }

/-- `Mp3TagData::GetCommentCount`. -/
def Mp3TagData.getCommentCount (st : Mp3TagData) : Nat :=
  st.commentFrames.length

/-- `Mp3TagData::GetComment`: decode the comment frame at the given
position, or the empty string when the position is out of range. -/
def Mp3TagData.getComment (st : Mp3TagData) (i : Nat) : List Nat :=
  if i < st.commentFrames.length then
    commentFrameGetText st.fileHeader.majorVersion
      (st.frames.getD (st.commentFrames.getD i 0) emptyID3Frame).getData
  else []

/-- `Mp3TagData::DeleteCommentFrame` (src/Mp3TagData.cpp lines 607-619):
no-op when the index is out of range; otherwise flag the frame for
delete, remove its position from the comment index and mark dirty. -/
def Mp3TagData.deleteCommentFrame (st : Mp3TagData) (i : Nat) : Mp3TagData :=
  if i < st.commentFrames.length then
    let p := st.commentFrames.getD i 0
    { st with
      frames := st.frames.set p (st.frames.getD p emptyID3Frame).flagToDelete
      commentFrames := st.commentFrames.erase p
      isDirty := true }
  else st

/-- `Mp3TagData::SetComment` (src/Mp3TagData.cpp lines 200-230): empty
text deletes; index = count appends a fresh frame registered in the
comment index; the addressed frame's replacement buffer becomes the bytes
of `buildCommentFrame`. -/
def Mp3TagData.setComment (st : Mp3TagData) (i : Nat) (s : List Nat) : Mp3TagData :=
  if s.length = 0 then st.deleteCommentFrame i
  else
    let st1 :=
      if i = st.commentFrames.length then
        { st with
          frames := st.frames ++ [emptyID3Frame]
          commentFrames := st.commentFrames ++ [st.frames.length] }
      else st
    let p := st1.commentFrames.getD i 0
    { st1 with
      frames := st1.frames.set p
        { st1.frames.getD p emptyID3Frame with
          newFrame := buildCommentFrame st.fileHeader.majorVersion s }
      isDirty := true }

/-! ## Frame-section parsing (src/Mp3TagData.cpp lines 355-407)

The C++ parser walks raw pointers into `id3FrameBuffer_` and can read
bytes past the end of that buffer (a frame header truncated by the
buffer end is still dereferenced).  `byteAt` models memory as the buffer
followed by an arbitrary `junk` valuation for the bytes beyond it. -/

/-- Byte `i` of the memory holding `buf`: the buffer byte when in
bounds, otherwise whatever junk sits in memory after it. -/
def byteAt (buf : List Nat) (junk : Nat → Nat) (i : Nat) : Nat :=
  buf.getD i (junk i)

/-- One character of a valid frame ID: uppercase A-Z or digit 0-9
(`Mp3BaseTagData::IsValidFrameID`, src/Mp3BaseTagData.h lines 180-193). -/
def isValidFrameIDByte (b : Nat) : Bool :=
  (decide (65 ≤ b) && decide (b ≤ 90)) || (decide (48 ≤ b) && decide (b ≤ 57))

/-- `Mp3BaseTagData::IsValidFrame` at offset `off` of the frame buffer:
first byte nonzero (not padding) and the four ID bytes valid. -/
def isValidFrameAt (buf : List Nat) (junk : Nat → Nat) (off : Nat) : Bool :=
  !(byteAt buf junk off == 0) &&
  (isValidFrameIDByte (byteAt buf junk off) &&
   isValidFrameIDByte (byteAt buf junk (off + 1)) &&
   isValidFrameIDByte (byteAt buf junk (off + 2)) &&
   isValidFrameIDByte (byteAt buf junk (off + 3)))

/-- `ID3v2FrameHdr::GetSize` read through a raw pointer at offset `off`
of the frame buffer (bytes `off+4 .. off+7`). -/
def frameSizeAt (ver : Nat) (buf : List Nat) (junk : Nat → Nat) (off : Nat) : Nat :=
  if ver = 3 then
    readID3Int8 (byteAt buf junk (off + 4)) (byteAt buf junk (off + 5))
      (byteAt buf junk (off + 6)) (byteAt buf junk (off + 7))
  else
    readID3Int7 (byteAt buf junk (off + 4)) (byteAt buf junk (off + 5))
      (byteAt buf junk (off + 6)) (byteAt buf junk (off + 7))

/-- The idealized (unbounded-arithmetic) abstraction of the
`Mp3TagData::ParseID3Frames` / `ParseID3Frame` loop: starting offsets of
the frames accepted by the parse.  A frame is accepted while the offset
is inside the buffer and `IsValidFrame` holds there; the offset then
advances by the frame's declared extent.  This abstraction drops the
`uint32_t` wrap of the C++ offset arithmetic and therefore always
terminates; `parseID3FrameOffsetsU32` below is the faithful loop, and
they agree exactly when no advance wraps (see
`claim_C3_truncated_parse_amended`). -/
def parseID3FrameOffsets (buf : List Nat) (junk : Nat → Nat) (ver : Nat) (off : Nat) :
    List Nat :=
  if _hoff : off < buf.length then
    if isValidFrameAt buf junk off then
      off :: parseID3FrameOffsets buf junk ver
        (off + (frameHeaderSize + frameSizeAt ver buf junk off))
    else []
  else []
termination_by buf.length - off
decreasing_by simp only [frameHeaderSize]; omega

/-- `Mp3TagData::GetFrameBytes` (src/Mp3TagData.cpp lines 475-479) read
at offset `off` of the frame buffer, with the C++ return type: the
function returns `uint32_t`, so the `size_t` sum
`sizeof(ID3v2FrameHdr) + GetFrameSize(...)` narrows mod 2^32 on return
(a version-3 frame declaring size 2^32 - 10 yields 0). -/
def getFrameBytesAt (ver : Nat) (buf : List Nat) (junk : Nat → Nat) (off : Nat) : Nat :=
  (frameHeaderSize + frameSizeAt ver buf junk off) % 2 ^ 32

/-- The `Mp3TagData::ParseID3Frames` / `ParseID3Frame` loop with the
C++ offset arithmetic: `offset` is a `uint32_t` and
`offset += static_cast(GetFrameBytes(...))` (a `uint32_t` sum) wraps mod 2^32, so
for version-3 frames with near-2^32 declared sizes the loop can revisit
an offset and never terminate.  `fuel` bounds the number of iterations
modelled: `some offs` means the loop stopped within `fuel` iterations
having accepted the frames at `offs`; `none` means it was still running
when the fuel ran out, so `∀ fuel, ... = none` is divergence of the C++
loop (`LoadTagData` never returns). -/
def parseID3FrameOffsetsU32 (buf : List Nat) (junk : Nat → Nat) (ver : Nat) :
    Nat → Nat → Option (List Nat)
  | 0, _ => none
  | fuel + 1, off =>
    if off < buf.length then
      if isValidFrameAt buf junk off then
        (parseID3FrameOffsetsU32 buf junk ver fuel
          ((off + getFrameBytesAt ver buf junk off) % 2 ^ 32)).map
          (fun l => off :: l)
      else some []
    else some []

/-! ## The APE locator (src/Mp3TagData.cpp lines 488-531) -/

/-- "APETAGEX" as ASCII bytes. -/
def apeTagSig : List Nat := [65, 80, 69, 84, 65, 71, 69, 88]

/-- `needle` is an initial run of `hay` (byte-wise). -/
def leadsOf : List Nat → List Nat → Bool
  | [], _ => true
  | _ :: _, [] => false
  | a :: as, b :: bs => a == b && leadsOf as bs

/-- `std::string::find`: index of the first occurrence of `needle` in
`hay`, if any. -/
def listFindSub (needle : List Nat) : List Nat → Option Nat
  | [] => if leadsOf needle [] then some 0 else none
  | a :: t =>
    if leadsOf needle (a :: t) then some 0
    else (listFindSub needle t).map (· + 1)

/-- The backward chunked search loop of `Mp3TagData::FindApeHeaderOffset`:
while the file position is nonzero, search the window read at that
position; on a miss step back one chunk (4096 bytes, floored at 0) and
widen the window by the 8-byte signature length. -/
def apeLoop (file : List Nat) (filePos readLength : Nat) : Option Nat :=
  if _hfp : filePos = 0 then none
  else
    match listFindSub apeTagSig ((file.drop filePos).take readLength) with
    | some j => some (filePos + j)
    | none => apeLoop file (filePos - 4096) (4096 + 8)
termination_by filePos
decreasing_by omega

/-- `Mp3TagData::FindApeHeaderOffset`: start one chunk before
end-of-file (or at 0 for smaller files) with a plain 4096-byte window
(`none` models `kNoApeHeader`). -/
def findApeHeaderOffset (file : List Nat) : Option Nat :=
  let fileSize := file.length
  let filePos := if 4096 > fileSize then 0 else fileSize - 4096
  apeLoop file filePos 4096

/-! ## Load and write (src/Mp3TagData.cpp lines 51-113 and 246-316) -/

/-- The header bytes read by `LoadTagData` (file offsets 0-9). -/
def mkFileHeaderOfFile (file : List Nat) : ID3v2FileHeader :=
  ⟨file.getD 0 0, file.getD 1 0, file.getD 2 0, file.getD 3 0, file.getD 4 0,
   file.getD 5 0, file.getD 6 0, file.getD 7 0, file.getD 8 0, file.getD 9 0⟩

/-- The frame table built by `ParseID3Frames`: each accepted offset
becomes an unmodified `ID3Frame` whose raw bytes are the frame's declared
extent (clipped at the buffer end — the C++ merely stores a pointer). -/
def mkLoadedFrames (buf : List Nat) (junk : Nat → Nat) (ver : Nat) : List ID3Frame :=
  (parseID3FrameOffsets buf junk ver 0).map
    (fun off => ⟨(buf.drop off).take (frameHeaderSize + frameSizeAt ver buf junk off), []⟩)

/-- The early-return failure conditions of `Mp3TagData::LoadTagData`, in
the order the C++ tests them: open failure; header-read failure (file
shorter than the 10-byte header); invalid header; frame-section read
failure; APE-section seek/read failure (only when the APE signature
search found a tag).  File I/O fallibility is modelled by oracles:
`openOk` (the open call), `frameReadOk` (the frame-section read) and
`apeReadOk` (the APE-section seek+read). -/
def loadFails (file : List Nat) (openOk frameReadOk apeReadOk : Bool) : Bool :=
  !openOk || decide (file.length < 10) || !isValidFileHeader (mkFileHeaderOfFile file) ||
  !frameReadOk || ((findApeHeaderOffset file).isSome && !apeReadOk)

/-- `Mp3TagData::LoadTagData`: `none` is a failed load.  The
frame-section read returns however many bytes are available
(`bytesRead`), shrinking the buffer, which the `take` models.  On
success the parsed frame table and its text/comment indices populate the
fresh state and the dirty bit is cleared. -/
def Mp3TagData.loadTagData (file : List Nat) (junk : Nat → Nat)
    (openOk frameReadOk apeReadOk : Bool) : Option Mp3TagData :=
  if loadFails file openOk frameReadOk apeReadOk then none
  else
    let hdr := mkFileHeaderOfFile file
    let frameSectionSize := headerGetSize hdr
    let audioOffset := 10 + frameSectionSize
    let buf := (file.drop 10).take frameSectionSize
    let frames := mkLoadedFrames buf junk hdr.majorVersion
    let textFrames := (List.range frames.length).filter
      (fun i => (frames.getD i emptyID3Frame).isTextFrame)
    let commentFrames := (List.range frames.length).filter
      (fun i => !(frames.getD i emptyID3Frame).isTextFrame &&
        (frames.getD i emptyID3Frame).isCommentFrame)
    some ⟨hdr, audioOffset, buf, frames, textFrames, commentFrames, false⟩

/-- `FrameTable.TotalWriteBytes`: the fold over all frames of
`GetWriteBytes` at the top of `Mp3TagData::Write`. -/
def Mp3TagData.totalWriteBytes (st : Mp3TagData) : Nat :=
  (st.frames.map (ID3Frame.getWriteBytes st.fileHeader.majorVersion)).sum

/-- `Mp3TagData::Write` (src/Mp3TagData.cpp lines 246-316), returning the
C++ return value and the file contents after the write.  Not dirty: no
write, `false`.  Otherwise: compute the new frame-section size; pad with
2048 fresh bytes when it outgrew the original buffer, else with the
leftover space; write header, surviving frames and zero padding
sequentially from offset 0, then (only in the growth case) re-append the
previously saved audio/APE tail; finally reload the file, whose success
is the return value. -/
def Mp3TagData.write (st : Mp3TagData) (file : List Nat) (junk : Nat → Nat) :
    Bool × List Nat :=
  if !st.isDirty then (false, file)
  else
    let frameSectionSize := st.totalWriteBytes
    let padBytes :=
      if frameSectionSize > st.id3FrameBuffer.length then 2048
      else st.id3FrameBuffer.length - frameSectionSize
    let hdr := headerSetSize st.fileHeader (frameSectionSize + padBytes)
    let audioData :=
      if frameSectionSize > st.id3FrameBuffer.length then
        file.drop (10 + st.id3FrameBuffer.length)
      else []
    let out := headerBytes hdr ++ (st.frames.map ID3Frame.writeData).flatten
      ++ List.replicate padBytes 0 ++ audioData
    let newFile := out ++ file.drop out.length
    ((Mp3TagData.loadTagData newFile junk true true true).isSome, newFile)

/-! ## APE search specification helpers -/

/-- The 8-byte signature "APETAGEX" occurs in `file` at offset `s`. -/
def apeSigAt (file : List Nat) (s : Nat) : Prop :=
  leadsOf apeTagSig (file.drop s) = true

instance (file : List Nat) (s : Nat) : Decidable (apeSigAt file s) := by
  unfold apeSigAt
  infer_instance

/-- The offsets examined by the backward chunked search when it is
entered with position `filePos` and window size `readLength`: offset `s`
is covered if the current window contains a full signature extent at `s`
(inside the file), or if a later (further-back, 4096 bytes earlier)
window of the chain does with the widened 4104-byte window.  `L` is the
file length. -/
inductive ApeCovered (L : Nat) : Nat → Nat → Nat → Prop where
  | here : ∀ {filePos readLength s : Nat}, filePos ≠ 0 → filePos ≤ s →
      s + 8 ≤ filePos + readLength → s + 8 ≤ L → ApeCovered L filePos readLength s
  | there : ∀ {filePos readLength s p : Nat}, filePos ≠ 0 → p = filePos - 4096 →
      ApeCovered L p 4104 s → ApeCovered L filePos readLength s

/-! ## Helper lemmas -/

theorem readID3Int7_writeID3Int7 (v : Nat) (h : v < 2 ^ 28) :
    readID3Int7L (writeID3Int7 v) = v := by
  simp only [readID3Int7L, writeID3Int7, readID3Int7, List.getD_cons_zero,
    List.getD_cons_succ]
  omega

theorem readID3Int8_writeID3Int8 (v : Nat) (h : v < 2 ^ 32) :
    readID3Int8L (writeID3Int8 v) = v := by
  simp only [readID3Int8L, writeID3Int8, readID3Int8, List.getD_cons_zero,
    List.getD_cons_succ]
  omega

theorem readID3Int7_components (n : Nat) (h : n < 2 ^ 28) :
    readID3Int7 (n / 2 ^ 21 % 128) (n / 2 ^ 14 % 128) (n / 2 ^ 7 % 128) (n % 128) = n := by
  simp only [readID3Int7]
  omega

theorem readID3Int8_components (n : Nat) (h : n < 2 ^ 32) :
    readID3Int8 (n / 2 ^ 24 % 256) (n / 2 ^ 16 % 256) (n / 2 ^ 8 % 256) (n % 256) = n := by
  simp only [readID3Int8]
  omega

theorem encodeFrameSize_length (ver n : Nat) : (encodeFrameSize ver n).length = 4 := by
  by_cases hv : ver = 3 <;> simp [encodeFrameSize, hv, writeID3Int7, writeID3Int8]

theorem frameTypeID_four (t : Mp3FrameType) (ht : isTextFrameType t = true) :
    ∃ a b c d : Nat, frameTypeID t = [a, b, c, d] := by
  cases t
  · exact absurd ht (by decide)
  all_goals exact ⟨_, _, _, _, rfl⟩

theorem getTextBytes_spec (fs off : Nat) (h1 : frameHeaderSize + fs < 2 ^ 32)
    (h2 : off < 2 ^ 32) :
    getTextBytes fs off =
      if off > frameHeaderSize + fs then 0 else frameHeaderSize + fs - off := by
  simp only [getTextBytes, Nat.mod_eq_of_lt h1, Nat.mod_eq_of_lt h2]

theorem rstrip0_no_trailing (l : List Nat) (h : l.getLast? ≠ some 0) : rstrip0 l = l := by
  unfold rstrip0
  rcases hl : l.reverse with _ | ⟨a, t⟩
  · simp_all [List.reverse_eq_nil_iff]
  · have ha : a ≠ 0 := by
      intro h0
      apply h
      have : l.getLast? = l.reverse.head? := by
        simp [List.head?_reverse]
      rw [this, hl, h0]
      rfl
    rw [List.dropWhile_cons]
    simp only [beq_iff_eq, ha, if_false]
    rw [← hl, List.reverse_reverse]

theorem set_append_singleton {α : Type} (l : List α) (a b : α) :
    (l ++ [a]).set l.length b = l ++ [b] := by
  induction l with
  | nil => rfl
  | cons x xs ih => simp [List.set, ih]

theorem getD_append_singleton {α : Type} (l : List α) (a d : α) :
    (l ++ [a]).getD l.length d = a := by
  rw [List.getD_append_right _ _ _ _ (Nat.le_refl _)]
  simp

theorem list_len4 {α : Type} (p : List α) (hp : p.length = 4) :
    ∃ a b c d, p = [a, b, c, d] := by
  rcases p with _ | ⟨a, p⟩
  · simp at hp
  rcases p with _ | ⟨b, p⟩
  · simp at hp
  rcases p with _ | ⟨c, p⟩
  · simp at hp
  rcases p with _ | ⟨d, p⟩
  · simp at hp
  rcases p with _ | ⟨e, p⟩
  · exact ⟨a, b, c, d, rfl⟩
  · simp at hp

theorem frameSizeOf_chain (ver : Nat) (x0 x1 x2 x3 e0 e1 e2 e3 : Nat) (rest : List Nat)
    (n : Nat) (hfit : n < 2 ^ 28)
    (henc : encodeFrameSize ver n = [e0, e1, e2, e3]) :
    frameSizeOf ver (x0 :: x1 :: x2 :: x3 :: e0 :: e1 :: e2 :: e3 :: rest) = n := by
  by_cases hv : ver = 3
  · subst hv
    simp only [encodeFrameSize, if_pos rfl, writeID3Int8, List.cons.injEq, and_true] at henc
    obtain ⟨rfl, rfl, rfl, rfl⟩ := henc
    show readID3Int8 (n / 2 ^ 24 % 256) (n / 2 ^ 16 % 256) (n / 2 ^ 8 % 256) (n % 256) = n
    exact readID3Int8_components n (by omega)
  · simp only [encodeFrameSize, if_neg hv, writeID3Int7, List.cons.injEq, and_true] at henc
    obtain ⟨rfl, rfl, rfl, rfl⟩ := henc
    simp only [frameSizeOf, if_neg hv]
    show readID3Int7 (n / 2 ^ 21 % 128) (n / 2 ^ 14 % 128) (n / 2 ^ 7 % 128) (n % 128) = n
    exact readID3Int7_components n hfit

theorem textFrameGetText_build (t : Mp3FrameType) (ver : Nat) (s : List Nat)
    (ht : isTextFrameType t = true) (hfit : 1 + s.length < 2 ^ 28) :
    textFrameGetText ver (buildTextFrame t ver s) = rstrip0 s := by
  obtain ⟨a, b, c, d, hid⟩ := frameTypeID_four t ht
  have hn : textFrameGetFrameSize s - frameHeaderSize = 1 + s.length := by
    simp only [textFrameGetFrameSize, frameHeaderSize]
    omega
  obtain ⟨e0, e1, e2, e3, henc⟩ := list_len4 _ (encodeFrameSize_length ver (1 + s.length))
  have hchain : buildTextFrame t ver s =
      a :: b :: c :: d :: e0 :: e1 :: e2 :: e3 :: 0 :: 0 :: 0 :: s := by
    simp [buildTextFrame, hid, hn, henc]
  rw [hchain]
  have hsz := frameSizeOf_chain ver a b c d e0 e1 e2 e3 (0 :: 0 :: 0 :: s)
    (1 + s.length) (by omega) henc
  have hshape :
      textFrameGetText ver (a :: b :: c :: d :: e0 :: e1 :: e2 :: e3 :: 0 :: 0 :: 0 :: s) =
      rstrip0 (s.take (getTextBytes
        (frameSizeOf ver (a :: b :: c :: d :: e0 :: e1 :: e2 :: e3 :: 0 :: 0 :: 0 :: s)) 11)) :=
    rfl
  rw [hshape, hsz]
  have hbc : getTextBytes (1 + s.length) 11 = s.length := by
    rw [getTextBytes_spec _ _ (by simp only [frameHeaderSize]; omega) (by omega)]
    rw [if_neg (by simp only [frameHeaderSize]; omega)]
    simp only [frameHeaderSize]
    omega
  rw [hbc, List.take_length]

theorem commentFrameGetText_build (ver : Nat) (s : List Nat)
    (hfit : 5 + s.length < 2 ^ 28) :
    commentFrameGetText ver (buildCommentFrame ver s) = rstrip0 s := by
  have hn : commentFrameGetFrameSize s - frameHeaderSize = 5 + s.length := by
    simp only [commentFrameGetFrameSize, frameHeaderSize]
    omega
  obtain ⟨e0, e1, e2, e3, henc⟩ := list_len4 _ (encodeFrameSize_length ver (5 + s.length))
  have hchain : buildCommentFrame ver s =
      67 :: 79 :: 77 :: 77 :: e0 :: e1 :: e2 :: e3 ::
        0 :: 0 :: 0 :: 101 :: 110 :: 103 :: 0 :: s := by
    simp [buildCommentFrame, hn, henc]
  rw [hchain]
  have hsz := frameSizeOf_chain ver 67 79 77 77 e0 e1 e2 e3
    (0 :: 0 :: 0 :: 101 :: 110 :: 103 :: 0 :: s) (5 + s.length) (by omega) henc
  have hshape :
      commentFrameGetText ver (67 :: 79 :: 77 :: 77 :: e0 :: e1 :: e2 :: e3 ::
        0 :: 0 :: 0 :: 101 :: 110 :: 103 :: 0 :: s) =
      rstrip0 (((0 :: s).take (getTextBytes
          (frameSizeOf ver (67 :: 79 :: 77 :: 77 :: e0 :: e1 :: e2 :: e3 ::
            0 :: 0 :: 0 :: 101 :: 110 :: 103 :: 0 :: s)) 14)).drop
        (((0 :: s).take (getTextBytes
          (frameSizeOf ver (67 :: 79 :: 77 :: 77 :: e0 :: e1 :: e2 :: e3 ::
            0 :: 0 :: 0 :: 101 :: 110 :: 103 :: 0 :: s)) 14)).findIdx
          (fun b => b == 0) + 1)) := rfl
  rw [hshape, hsz]
  have hbc : getTextBytes (5 + s.length) 14 = 1 + s.length := by
    rw [getTextBytes_spec _ _ (by simp only [frameHeaderSize]; omega) (by omega)]
    rw [if_neg (by simp only [frameHeaderSize]; omega)]
    simp only [frameHeaderSize]
    omega
  rw [hbc]
  have htk : (0 :: s).take (1 + s.length) = 0 :: s := by
    rw [Nat.add_comm, List.take_succ_cons, List.take_length]
  rw [htk]
  have hidx : (0 :: s).findIdx (fun b => b == 0) = 0 := by
    simp [List.findIdx_cons]
  rw [hidx]
  rfl

theorem buildTextFrame_length (t : Mp3FrameType) (ver : Nat) (s : List Nat)
    (ht : isTextFrameType t = true) :
    (buildTextFrame t ver s).length = 11 + s.length := by
  obtain ⟨a, b, c, d, hid⟩ := frameTypeID_four t ht
  simp [buildTextFrame, hid, encodeFrameSize_length]
  omega

theorem buildCommentFrame_length (ver : Nat) (s : List Nat) :
    (buildCommentFrame ver s).length = 15 + s.length := by
  simp [buildCommentFrame, encodeFrameSize_length]
  omega

theorem buildCommentFrame_bytes (ver : Nat) (s : List Nat) :
    (buildCommentFrame ver s).getD 10 0 = 0 ∧
    (buildCommentFrame ver s).getD 11 0 = 101 ∧
    (buildCommentFrame ver s).getD 12 0 = 110 ∧
    (buildCommentFrame ver s).getD 13 0 = 103 ∧
    (buildCommentFrame ver s).getD 14 0 = 0 := by
  obtain ⟨e0, e1, e2, e3, henc⟩ :=
    list_len4 _ (encodeFrameSize_length ver (commentFrameGetFrameSize s - frameHeaderSize))
  have hchain : buildCommentFrame ver s =
      67 :: 79 :: 77 :: 77 :: e0 :: e1 :: e2 :: e3 ::
        0 :: 0 :: 0 :: 101 :: 110 :: 103 :: 0 :: s := by
    simp [buildCommentFrame, henc]
  rw [hchain]
  exact ⟨rfl, rfl, rfl, rfl, rfl⟩

theorem getData_of_newFrame_big (f : ID3Frame) (h : 1 < f.newFrame.length) :
    f.getData = f.newFrame := by
  unfold ID3Frame.getData
  rcases hl : f.newFrame.length with _ | _ | n
  · omega
  · omega
  · rfl

theorem frameIDBytes_of_newFrame_big (f : ID3Frame) (h : 1 < f.newFrame.length) :
    f.frameIDBytes =
      [f.newFrame.getD 0 0, f.newFrame.getD 1 0, f.newFrame.getD 2 0, f.newFrame.getD 3 0] := by
  unfold ID3Frame.frameIDBytes
  rcases hl : f.newFrame.length with _ | _ | n
  · omega
  · omega
  · rfl

theorem frameIDBytes_of_delete (f : ID3Frame) (h : f.newFrame.length = 1) :
    f.frameIDBytes = [68, 69, 76, 32] := by
  unfold ID3Frame.frameIDBytes
  rw [h]

theorem setComment_append_eq (st : Mp3TagData) (s : List Nat) (hs : s.length ≠ 0) :
    st.setComment st.getCommentCount s =
      { st with
        frames := st.frames ++
          [{ emptyID3Frame with newFrame := buildCommentFrame st.fileHeader.majorVersion s }],
        commentFrames := st.commentFrames ++ [st.frames.length],
        isDirty := true } := by
  unfold Mp3TagData.setComment Mp3TagData.getCommentCount
  rw [if_neg hs, if_pos rfl]
  simp only [getD_append_singleton, set_append_singleton]

/-! ## Claims -/

/-- Claim C5: for every u32 value representable in 28 bits, decoding the
7-bit (synchsafe) encoding yields the value back
(`ReadID3Int<7>(WriteID3Int<7>(v)) == v`); in the 8-bit plain big-endian
mode every 32-bit value round-trips exactly. -/
theorem claim_C5_id3int_roundtrip (v : Nat) :
    (v < 2 ^ 28 → readID3Int7L (writeID3Int7 v) = v) ∧
    (v < 2 ^ 32 → readID3Int8L (writeID3Int8 v) = v) :=
  ⟨readID3Int7_writeID3Int7 v, readID3Int8_writeID3Int8 v⟩

theorem claim_C5_witness :
    (268435454 < 2 ^ 28 ∧ readID3Int7L (writeID3Int7 268435454) = 268435454) ∧
    (3000000001 < 2 ^ 32 ∧ readID3Int8L (writeID3Int8 3000000001) = 3000000001) :=
  ⟨⟨by norm_num, (claim_C5_id3int_roundtrip 268435454).1 (by norm_num)⟩,
   ⟨by norm_num, (claim_C5_id3int_roundtrip 3000000001).2 (by norm_num)⟩⟩

/-- Claim C8 counterexample: at the u32 boundary the claimed formula
fails.  For a (version-3) declared frame size of 2^32 - 1 and text offset
11, `GetTextBytes` computes `10 + frameSize` in wrapping `uint32_t`
arithmetic (giving 9), sees 11 > 9 and returns 0 — not the claimed
`frameHeaderSize + frameSize - 11` (which is nonzero and is not an
underflow case since 11 ≤ 10 + (2^32-1)). -/
theorem claim_C8_counterexample :
    getTextBytes (2 ^ 32 - 1) 11 = 0 ∧
    11 ≤ frameHeaderSize + (2 ^ 32 - 1) ∧
    frameHeaderSize + (2 ^ 32 - 1) - 11 ≠ 0 := by
  refine ⟨?_, by norm_num [frameHeaderSize], by norm_num [frameHeaderSize]⟩
  norm_num [getTextBytes, frameHeaderSize]

/-- Claim C8 (amended): when `frameHeaderSize + frameSize` fits in 32
bits and the offset is a valid u32, the derived text byte count equals
`frameHeaderSize + frameSize - offset`, and whenever the offset exceeds
`frameHeaderSize + frameSize` the result is 0 instead of underflowing. -/
theorem claim_C8_getTextBytes_amended (frameSize offset : Nat)
    (h32 : frameHeaderSize + frameSize < 2 ^ 32) (hoff : offset < 2 ^ 32) :
    (offset ≤ frameHeaderSize + frameSize →
      getTextBytes frameSize offset = frameHeaderSize + frameSize - offset) ∧
    (frameHeaderSize + frameSize < offset → getTextBytes frameSize offset = 0) := by
  constructor
  · intro h
    rw [getTextBytes_spec _ _ h32 hoff, if_neg (by omega)]
  · intro h
    rw [getTextBytes_spec _ _ h32 hoff, if_pos (by omega)]

theorem claim_C8_witness :
    (frameHeaderSize + 13 < 2 ^ 32 ∧ 11 < 2 ^ 32 ∧ 11 ≤ frameHeaderSize + 13 ∧
      getTextBytes 13 11 = frameHeaderSize + 13 - 11) ∧
    (frameHeaderSize + 3 < 2 ^ 32 ∧ frameHeaderSize + 3 < 14 ∧ getTextBytes 3 14 = 0) :=
  ⟨⟨by norm_num [frameHeaderSize], by norm_num, by norm_num [frameHeaderSize],
    (claim_C8_getTextBytes_amended 13 11 (by norm_num [frameHeaderSize]) (by norm_num)).1
      (by norm_num [frameHeaderSize])⟩,
   ⟨by norm_num [frameHeaderSize], by norm_num [frameHeaderSize],
    (claim_C8_getTextBytes_amended 3 14 (by norm_num [frameHeaderSize]) (by norm_num)).2
      (by norm_num [frameHeaderSize])⟩⟩

/-- Claim C9: every `ID3Frame` is in exactly one of three states encoded
by the replacement-buffer length (0 = unmodified, 1 = marked-for-delete,
>1 = replaced); `GetWriteBytes` returns the original on-disk size, 0, or
the new buffer size respectively; the buffers `SetText`/`SetComment`
allocate (`GetFrameSize` of a non-empty string: 10-byte header + encoding
byte + text, and the comment analogue) always have length strictly
greater than 1, so a replaced frame can never collide with the length-1
delete sentinel; `FlagToDelete` always produces the length-1 state. -/
theorem claim_C9_frame_state_sentinels :
    (∀ f : ID3Frame,
      f.newFrame.length = 0 ∨ f.newFrame.length = 1 ∨ 1 < f.newFrame.length) ∧
    (∀ (f : ID3Frame) (ver : Nat),
      (f.newFrame.length = 0 → f.getWriteBytes ver = getFrameBytes ver f.rawFrame) ∧
      (f.newFrame.length = 1 → f.getWriteBytes ver = 0) ∧
      (1 < f.newFrame.length → f.getWriteBytes ver = f.newFrame.length)) ∧
    (∀ s : List Nat, s ≠ [] →
      textFrameGetFrameSize s = frameHeaderSize + 1 + s.length ∧
      1 < textFrameGetFrameSize s) ∧
    (∀ s : List Nat, s ≠ [] → 1 < commentFrameGetFrameSize s) ∧
    (∀ (t : Mp3FrameType) (ver : Nat) (s : List Nat), isTextFrameType t = true →
      (buildTextFrame t ver s).length = textFrameGetFrameSize s) ∧
    (∀ (ver : Nat) (s : List Nat),
      (buildCommentFrame ver s).length = commentFrameGetFrameSize s) ∧
    (∀ f : ID3Frame, f.flagToDelete.newFrame.length = 1) := by
  refine ⟨fun f => by omega, fun f ver => ⟨?_, ?_, ?_⟩, fun s _ => ?_, fun s _ => ?_,
    fun t ver s ht => ?_, fun ver s => ?_, fun f => ?_⟩
  · intro h
    simp [ID3Frame.getWriteBytes, h]
  · intro h
    simp [ID3Frame.getWriteBytes, h]
  · intro h
    rcases hl : f.newFrame.length with _ | _ | n
    · omega
    · omega
    · simp [ID3Frame.getWriteBytes, hl]
  · constructor
    · simp [textFrameGetFrameSize, frameHeaderSize]
    · simp [textFrameGetFrameSize]
      omega
  · simp [commentFrameGetFrameSize]
    omega
  · rw [buildTextFrame_length t ver s ht]
    simp [textFrameGetFrameSize]
  · rw [buildCommentFrame_length]
    simp [commentFrameGetFrameSize]
  · simp [ID3Frame.flagToDelete, resizeList]
    omega

theorem claim_C9_witness :
    (([65] : List Nat) ≠ [] ∧ textFrameGetFrameSize [65] = frameHeaderSize + 1 + 1 ∧
      1 < textFrameGetFrameSize [65]) ∧
    (isTextFrameType .title = true ∧
      (buildTextFrame .title 4 [65]).length = textFrameGetFrameSize [65]) ∧
    (ID3Frame.mk [] [7, 7] ).newFrame.length = 1 + 1 ∧
    (ID3Frame.getWriteBytes 4 (ID3Frame.mk [] [7, 7]) = 2) :=
  ⟨⟨by decide, (claim_C9_frame_state_sentinels.2.2.1 [65] (by decide)).1,
    (claim_C9_frame_state_sentinels.2.2.1 [65] (by decide)).2⟩,
   ⟨by decide, claim_C9_frame_state_sentinels.2.2.2.2.1 .title 4 [65] (by decide)⟩,
   by decide,
   (claim_C9_frame_state_sentinels.2.1 (ID3Frame.mk [] [7, 7]) 4).2.2 (by decide)⟩

/-- Claim C10: deleting an absent frame is a complete no-op that does not
mark the store dirty — `SetText(t, "")` and `DeleteTextFrame(t)` with no
frame of type `t` in the text index leave the whole state unchanged, and
`DeleteCommentFrame(i)` for `i ≥ GetCommentCount()` likewise; a
subsequent `Write()` returns false (touching nothing) when the store is
not dirty. -/
theorem claim_C10_delete_absent_noop (st : Mp3TagData) (t : Mp3FrameType) (i : Nat)
    (file : List Nat) (junk : Nat → Nat) :
    (st.getTextFrameReferencePos t = none →
      st.setText t [] = st ∧ st.deleteTextFrame t = st) ∧
    (st.commentFrames.length ≤ i → st.deleteCommentFrame i = st) ∧
    (st.isDirty = false → st.write file junk = (false, file)) := by
  refine ⟨?_, ?_, ?_⟩
  · intro h
    have hd : st.deleteTextFrame t = st := by
      simp [Mp3TagData.deleteTextFrame, h]
    exact ⟨by simp [Mp3TagData.setText, hd], hd⟩
  · intro h
    simp [Mp3TagData.deleteCommentFrame, Nat.not_lt.mpr h]
  · intro h
    simp [Mp3TagData.write, h]

theorem claim_C10_witness :
    Mp3TagData.setText ⟨⟨73, 68, 51, 4, 0, 0, 0, 0, 0, 0⟩, 10, [], [], [], [], false⟩
        .title [] = ⟨⟨73, 68, 51, 4, 0, 0, 0, 0, 0, 0⟩, 10, [], [], [], [], false⟩ ∧
    Mp3TagData.deleteCommentFrame ⟨⟨73, 68, 51, 4, 0, 0, 0, 0, 0, 0⟩, 10, [], [], [], [], false⟩
        0 = ⟨⟨73, 68, 51, 4, 0, 0, 0, 0, 0, 0⟩, 10, [], [], [], [], false⟩ ∧
    Mp3TagData.write ⟨⟨73, 68, 51, 4, 0, 0, 0, 0, 0, 0⟩, 10, [], [], [], [], false⟩
        [9] (fun _ => 0) = (false, [9]) :=
  ⟨((claim_C10_delete_absent_noop ⟨⟨73, 68, 51, 4, 0, 0, 0, 0, 0, 0⟩, 10, [], [], [], [], false⟩
      .title 0 [9] (fun _ => 0)).1 rfl).1,
   (claim_C10_delete_absent_noop ⟨⟨73, 68, 51, 4, 0, 0, 0, 0, 0, 0⟩, 10, [], [], [], [], false⟩
      .title 0 [9] (fun _ => 0)).2.1 (Nat.le_refl 0),
   (claim_C10_delete_absent_noop ⟨⟨73, 68, 51, 4, 0, 0, 0, 0, 0, 0⟩, 10, [], [], [], [], false⟩
      .title 0 [9] (fun _ => 0)).2.2 rfl⟩

/-- Claim C7: from any loaded tag state with `n = GetCommentCount()`,
`SetComment(n, "hello")` makes `GetCommentCount()` return `n + 1` and
`GetComment(n)` return "hello"; the new comment frame is written as ANSI
(encoding byte 0) with the fixed "eng" language and a single-NUL empty
description, and decoding skips the description before returning the
comment text. -/
theorem claim_C7_setComment_append (st : Mp3TagData) :
    (st.setComment st.getCommentCount [104, 101, 108, 108, 111]).getCommentCount =
      st.getCommentCount + 1 ∧
    (st.setComment st.getCommentCount [104, 101, 108, 108, 111]).getComment
      st.getCommentCount = [104, 101, 108, 108, 111] ∧
    ((st.setComment st.getCommentCount [104, 101, 108, 108, 111]).frames.getD
        st.frames.length emptyID3Frame).newFrame =
      buildCommentFrame st.fileHeader.majorVersion [104, 101, 108, 108, 111] ∧
    (buildCommentFrame st.fileHeader.majorVersion [104, 101, 108, 108, 111]).getD 10 0 = 0 ∧
    (buildCommentFrame st.fileHeader.majorVersion [104, 101, 108, 108, 111]).getD 11 0 = 101 ∧
    (buildCommentFrame st.fileHeader.majorVersion [104, 101, 108, 108, 111]).getD 12 0 = 110 ∧
    (buildCommentFrame st.fileHeader.majorVersion [104, 101, 108, 108, 111]).getD 13 0 = 103 ∧
    (buildCommentFrame st.fileHeader.majorVersion [104, 101, 108, 108, 111]).getD 14 0 = 0 := by
  have hstep := setComment_append_eq st [104, 101, 108, 108, 111] (by norm_num)
  obtain ⟨hb10, hb11, hb12, hb13, hb14⟩ :=
    buildCommentFrame_bytes st.fileHeader.majorVersion [104, 101, 108, 108, 111]
  refine ⟨?_, ?_, ?_, hb10, hb11, hb12, hb13, hb14⟩
  · rw [hstep]
    simp [Mp3TagData.getCommentCount]
  · rw [hstep]
    have hcount : st.getCommentCount = st.commentFrames.length := rfl
    simp only [Mp3TagData.getComment]
    rw [if_pos (by simp [hcount])]
    rw [hcount]
    rw [getD_append_singleton]
    rw [getD_append_singleton]
    have hbig : 1 < (buildCommentFrame st.fileHeader.majorVersion
        [104, 101, 108, 108, 111]).length := by
      rw [buildCommentFrame_length]
      norm_num
    rw [getData_of_newFrame_big _ hbig]
    rw [commentFrameGetText_build _ _ (by norm_num)]
    decide
  · rw [hstep]
    rw [getD_append_singleton]

theorem isValidFileHeader_iff (h : ID3v2FileHeader) :
    isValidFileHeader h = true ↔
      ((h.i0 = 73 ∧ h.i1 = 68 ∧ h.i2 = 51) ∧
       ¬(h.majorVersion < 3 ∨ h.majorVersion = 255 ∨ h.minorVersion = 255) ∧
       (h.flags &&& 64 = 0 ∧ h.flags &&& 32 = 0 ∧ h.flags &&& 15 = 0)) := by
  simp [isValidFileHeader]
  tauto

set_option maxHeartbeats 1000000 in
theorem loadFails_iff (file : List Nat) (openOk frameReadOk apeReadOk : Bool) :
    loadFails file openOk frameReadOk apeReadOk = true ↔
      (openOk = false ∨ file.length < 10 ∨
        ¬(file.getD 0 0 = 73 ∧ file.getD 1 0 = 68 ∧ file.getD 2 0 = 51) ∨
        file.getD 3 0 < 3 ∨ file.getD 3 0 = 255 ∨ file.getD 4 0 = 255 ∨
        file.getD 5 0 &&& 64 ≠ 0 ∨ file.getD 5 0 &&& 32 ≠ 0 ∨ file.getD 5 0 &&& 15 ≠ 0 ∨
        frameReadOk = false ∨
        ((findApeHeaderOffset file).isSome = true ∧ apeReadOk = false)) := by
  have hval := isValidFileHeader_iff (mkFileHeaderOfFile file)
  simp only [mkFileHeaderOfFile] at hval
  have hlink : isValidFileHeader (mkFileHeaderOfFile file) = false ↔
      ¬ isValidFileHeader (mkFileHeaderOfFile file) = true := by simp
  simp only [loadFails, Bool.or_eq_true, Bool.and_eq_true, Bool.not_eq_true',
    decide_eq_true_eq]
  tauto

/-- Claim C4: `LoadTagData` returns failure if and only if the file
cannot be opened or the 10-byte header cannot be read, the 3-byte
signature is not "ID3", the major version is < 3 or 0xFF, the minor
version is 0xFF, header flag bit 6 (extended), bit 5 (experimental) or
any of bits 0-3 is set (bit 7 and bit 4 alone never reject), the
frame-section read fails, or the APE-section read fails after the APE
signature was found. -/
theorem claim_C4_load_failure_iff (file : List Nat) (junk : Nat → Nat)
    (openOk frameReadOk apeReadOk : Bool) :
    Mp3TagData.loadTagData file junk openOk frameReadOk apeReadOk = none ↔
      (openOk = false ∨ file.length < 10 ∨
        ¬(file.getD 0 0 = 73 ∧ file.getD 1 0 = 68 ∧ file.getD 2 0 = 51) ∨
        file.getD 3 0 < 3 ∨ file.getD 3 0 = 255 ∨ file.getD 4 0 = 255 ∨
        file.getD 5 0 &&& 64 ≠ 0 ∨ file.getD 5 0 &&& 32 ≠ 0 ∨ file.getD 5 0 &&& 15 ≠ 0 ∨
        frameReadOk = false ∨
        ((findApeHeaderOffset file).isSome = true ∧ apeReadOk = false)) := by
  rw [← loadFails_iff file openOk frameReadOk apeReadOk]
  unfold Mp3TagData.loadTagData
  by_cases hb : loadFails file openOk frameReadOk apeReadOk = true
  · rw [if_pos hb]
    exact iff_of_true rfl hb
  · rw [if_neg hb]
    exact iff_of_false (fun h => Option.noConfusion h) hb

theorem validAt_zero_junk_bounds (buf : List Nat) (start : Nat)
    (h : isValidFrameAt buf (fun _ => 0) start = true) :
    start + 4 ≤ buf.length := by
  by_contra hcon
  push_neg at hcon
  have hv3 : isValidFrameIDByte (byteAt buf (fun _ => 0) (start + 3)) = true := by
    simp only [isValidFrameAt, Bool.and_eq_true] at h
    tauto
  have hz : byteAt buf (fun _ => 0) (start + 3) = 0 := by
    simp only [byteAt]
    exact List.getD_eq_default _ _ (by omega)
  rw [hz] at hv3
  exact absurd hv3 (by decide)

theorem parse_offsets_id_in_bounds (buf : List Nat) (ver : Nat) :
    ∀ (start : Nat), ∀ off ∈ parseID3FrameOffsets buf (fun _ => 0) ver start,
      off + 4 ≤ buf.length := by
  suffices h : ∀ (n start : Nat), buf.length - start < n →
      ∀ off ∈ parseID3FrameOffsets buf (fun _ => 0) ver start, off + 4 ≤ buf.length by
    intro start
    exact h (buf.length - start + 1) start (by omega)
  intro n
  induction n with
  | zero => omega
  | succ n ih =>
    intro start hlt off hmem
    rw [parseID3FrameOffsets.eq_def] at hmem
    by_cases h1 : start < buf.length
    · rw [dif_pos h1] at hmem
      by_cases h2 : isValidFrameAt buf (fun _ => 0) start = true
      · rw [if_pos h2] at hmem
        rcases List.mem_cons.mp hmem with rfl | htail
        · exact validAt_zero_junk_bounds buf off h2
        · exact ih (start + (frameHeaderSize + frameSizeAt ver buf (fun _ => 0) start))
            (by simp only [frameHeaderSize]; omega) off htail
      · rw [if_neg h2] at hmem
        exact absurd hmem (List.not_mem_nil off)
    · rw [dif_neg h1] at hmem
      exact absurd hmem (List.not_mem_nil off)

theorem parseU32_eq_of_nowrap (buf : List Nat) (junk : Nat → Nat) (ver : Nat)
    (hnw : ∀ off, off < buf.length →
      off + frameHeaderSize + frameSizeAt ver buf junk off < 2 ^ 32) :
    ∀ fuel off, buf.length - off < fuel →
      parseID3FrameOffsetsU32 buf junk ver fuel off =
        some (parseID3FrameOffsets buf junk ver off) := by
  intro fuel
  induction fuel with
  | zero => intro off h; omega
  | succ n ih =>
    intro off hlt
    simp only [parseID3FrameOffsetsU32]
    rw [parseID3FrameOffsets.eq_def]
    by_cases h1 : off < buf.length
    · rw [if_pos h1, dif_pos h1]
      by_cases h2 : isValidFrameAt buf junk off = true
      · rw [if_pos h2, if_pos h2]
        have hnw' := hnw off h1
        simp only [frameHeaderSize] at hnw'
        have hmod : (off + getFrameBytesAt ver buf junk off) % 2 ^ 32 =
            off + (frameHeaderSize + frameSizeAt ver buf junk off) := by
          unfold getFrameBytesAt
          simp only [frameHeaderSize]
          rw [Nat.mod_eq_of_lt (by omega), Nat.mod_eq_of_lt (by omega)]
        rw [hmod, ih (off + (frameHeaderSize + frameSizeAt ver buf junk off))
          (by simp only [frameHeaderSize]; omega)]
        rfl
      · rw [if_neg h2, if_neg h2]
    · rw [if_neg h1, dif_neg h1]

/-- Claim C3 counterexample: both safety halves of the claim fail.
First, the parse loop does not always terminate: on the 10-byte buffer
holding a valid version-3 frame "TIT2" whose size bytes FF FF FF F6
declare 2^32 - 10 payload bytes, `GetFrameBytes` (a `uint32_t`) wraps to
0, the offset never advances, and the C++ loop revisits offset 0 forever
(`LoadTagData` never returns): the faithful loop returns `none` at every
fuel.  Second, parsing a section truncated mid-frame reads outside the
buffer: on the 1-byte buffer [84] ('T', a partial frame header) the
result depends on the junk bytes beyond the buffer — zero junk records
no frame, junk bytes 'I','T','2' at the three out-of-bounds ID positions
record a frame at offset 0. -/
theorem claim_C3_counterexample :
    (∀ fuel, parseID3FrameOffsetsU32 [84, 73, 84, 50, 255, 255, 255, 246, 0, 0]
      (fun _ => 0) 3 fuel 0 = none) ∧
    parseID3FrameOffsetsU32 [84] (fun _ => 0) 4 2 0 = some [] ∧
    parseID3FrameOffsetsU32 [84]
      (fun i => if i = 1 then 73 else if i = 2 then 84 else if i = 3 then 50 else 0)
      4 2 0 = some [0] := by
  refine ⟨?_, by decide, by decide⟩
  intro fuel
  induction fuel with
  | zero => rfl
  | succ n ih =>
    simp only [parseID3FrameOffsetsU32]
    norm_num [isValidFrameAt, byteAt, isValidFrameIDByte, getFrameBytesAt, frameSizeAt,
      readID3Int8, frameHeaderSize]
    rw [ih]

/-- Claim C3 (amended): the parse loop terminates exactly when the
`uint32_t` offset arithmetic never wraps.  When every in-buffer offset
satisfies `off + 10 + declaredSize < 2^32` (always true of version-4+
synchsafe sizes, which are below 2^28), the faithful loop
`parseID3FrameOffsetsU32` stops within `buf.length + 1` iterations and
returns exactly the idealized offset list; with zero junk beyond the
buffer, every frame it records has its full 4-byte frame ID inside the
buffer (a partial header whose missing ID bytes are zero stops the
parse); and on such buffers `LoadTagData` returns success on a section
truncated mid-frame, with the frame table exactly the parser's output.
Without the no-wrap bound the loop can diverge (the counterexample), so
the parse does read outside the buffer and `LoadTagData`'s return is not
independent of the frame-section contents. -/
theorem claim_C3_truncated_parse_amended :
    (∀ (buf : List Nat) (junk : Nat → Nat) (ver : Nat),
      (∀ off, off < buf.length →
        off + frameHeaderSize + frameSizeAt ver buf junk off < 2 ^ 32) →
      parseID3FrameOffsetsU32 buf junk ver (buf.length + 1) 0 =
        some (parseID3FrameOffsets buf junk ver 0)) ∧
    (∀ (buf : List Nat) (ver start : Nat),
      ∀ off ∈ parseID3FrameOffsets buf (fun _ => 0) ver start, off + 4 ≤ buf.length) ∧
    (∀ (file : List Nat) (junk : Nat → Nat),
      10 ≤ file.length →
      isValidFileHeader (mkFileHeaderOfFile file) = true →
      (∀ off, off < ((file.drop 10).take (headerGetSize (mkFileHeaderOfFile file))).length →
        off + frameHeaderSize + frameSizeAt (mkFileHeaderOfFile file).majorVersion
          ((file.drop 10).take (headerGetSize (mkFileHeaderOfFile file))) junk off <
          2 ^ 32) →
      ∃ st, Mp3TagData.loadTagData file junk true true true = some st ∧
        st.frames = mkLoadedFrames
          ((file.drop 10).take (headerGetSize (mkFileHeaderOfFile file))) junk
          (mkFileHeaderOfFile file).majorVersion ∧
        parseID3FrameOffsetsU32
          ((file.drop 10).take (headerGetSize (mkFileHeaderOfFile file))) junk
          (mkFileHeaderOfFile file).majorVersion
          (((file.drop 10).take (headerGetSize (mkFileHeaderOfFile file))).length + 1) 0 =
          some (parseID3FrameOffsets
            ((file.drop 10).take (headerGetSize (mkFileHeaderOfFile file))) junk
            (mkFileHeaderOfFile file).majorVersion 0)) := by
  have hfail : ∀ file : List Nat, 10 ≤ file.length →
      isValidFileHeader (mkFileHeaderOfFile file) = true →
      loadFails file true true true = false := by
    intro file hlen hval
    simp [loadFails, hval]
    omega
  refine ⟨?_, fun buf ver => parse_offsets_id_in_bounds buf ver, ?_⟩
  · intro buf junk ver hnw
    exact parseU32_eq_of_nowrap buf junk ver hnw (buf.length + 1) 0 (by omega)
  · intro file junk hlen hval hnw
    cases hopt : Mp3TagData.loadTagData file junk true true true with
    | none =>
      exfalso
      unfold Mp3TagData.loadTagData at hopt
      rw [if_neg (by rw [hfail file hlen hval]; simp)] at hopt
      exact Option.noConfusion hopt
    | some st =>
      refine ⟨st, rfl, ?_, ?_⟩
      · unfold Mp3TagData.loadTagData at hopt
        rw [if_neg (by rw [hfail file hlen hval]; simp)] at hopt
        have hst := Option.some.inj hopt
        rw [← hst]
      · exact parseU32_eq_of_nowrap _ junk _ hnw _ 0 (by omega)

theorem claim_C3_witness :
    10 ≤ ([73, 68, 51, 4, 0, 0, 0, 0, 0, 1, 84] : List Nat).length ∧
    isValidFileHeader (mkFileHeaderOfFile [73, 68, 51, 4, 0, 0, 0, 0, 0, 1, 84]) = true ∧
    0 + frameHeaderSize + frameSizeAt
      (mkFileHeaderOfFile [73, 68, 51, 4, 0, 0, 0, 0, 0, 1, 84]).majorVersion
      ((([73, 68, 51, 4, 0, 0, 0, 0, 0, 1, 84] : List Nat).drop 10).take
        (headerGetSize (mkFileHeaderOfFile [73, 68, 51, 4, 0, 0, 0, 0, 0, 1, 84])))
      (fun _ => 0) 0 < 2 ^ 32 ∧
    ∃ st, Mp3TagData.loadTagData [73, 68, 51, 4, 0, 0, 0, 0, 0, 1, 84]
      (fun _ => 0) true true true = some st := by
  refine ⟨by decide, by decide, by decide, ?_⟩
  have hnw : ∀ off, off <
      ((([73, 68, 51, 4, 0, 0, 0, 0, 0, 1, 84] : List Nat).drop 10).take
        (headerGetSize (mkFileHeaderOfFile [73, 68, 51, 4, 0, 0, 0, 0, 0, 1, 84]))).length →
      off + frameHeaderSize + frameSizeAt
        (mkFileHeaderOfFile [73, 68, 51, 4, 0, 0, 0, 0, 0, 1, 84]).majorVersion
        ((([73, 68, 51, 4, 0, 0, 0, 0, 0, 1, 84] : List Nat).drop 10).take
          (headerGetSize (mkFileHeaderOfFile [73, 68, 51, 4, 0, 0, 0, 0, 0, 1, 84])))
        (fun _ => 0) off < 2 ^ 32 := by
    intro off hoff
    have h1 : off < 1 := by
      have hb : ((([73, 68, 51, 4, 0, 0, 0, 0, 0, 1, 84] : List Nat).drop 10).take
          (headerGetSize (mkFileHeaderOfFile
            [73, 68, 51, 4, 0, 0, 0, 0, 0, 1, 84]))).length = 1 := by decide
      omega
    have h0 : off = 0 := by omega
    subst h0
    decide
  obtain ⟨st, hst, -, -⟩ := claim_C3_truncated_parse_amended.2.2
    [73, 68, 51, 4, 0, 0, 0, 0, 0, 1, 84] (fun _ => 0) (by decide) (by decide) hnw
  exact ⟨st, hst⟩

theorem writeData_length_sum (ver : Nat) (fs : List ID3Frame)
    (hwf : ∀ f ∈ fs, f.newFrame.length = 0 →
      f.rawFrame.length = getFrameBytes ver f.rawFrame) :
    ((fs.map ID3Frame.writeData).flatten).length =
      (fs.map (ID3Frame.getWriteBytes ver)).sum := by
  induction fs with
  | nil => rfl
  | cons f t ih =>
    simp only [List.map_cons, List.flatten_cons, List.length_append, List.sum_cons]
    rw [ih (fun g hg h0 => hwf g (List.mem_cons_of_mem f hg) h0)]
    congr 1
    rcases hl : f.newFrame.length with _ | _ | n
    · have hr := hwf f (List.mem_cons_self f t) hl
      simp [ID3Frame.writeData, ID3Frame.getWriteBytes, hl, hr]
    · simp [ID3Frame.writeData, ID3Frame.getWriteBytes, hl]
    · simp [ID3Frame.writeData, ID3Frame.getWriteBytes, hl]

/-- Claim C1: for every loaded state, a `Write()` whose new frame-section
size (`TotalWriteBytes`) is at most the originally-read frame-section
buffer size leaves every byte of the file at offsets
`[GetAudioBufferOffset(), EOF)` untouched; the write overwrites only the
10-byte header, the frame bytes and the padding, which together occupy
exactly the original tag-section extent `10 + id3FrameBuffer.length`, and
the file length is unchanged.  The well-formedness hypothesis `hwf` says
each unmodified frame's raw slice really is its declared on-disk extent
(true of every frame the loader accepts), `hoff` and `hfile` say the
audio offset recorded at load time lies beyond the tag section inside the
file. -/
theorem claim_C1_write_preserves_audio (st : Mp3TagData) (file : List Nat)
    (junk : Nat → Nat)
    (hdirty : st.isDirty = true)
    (hwf : ∀ f ∈ st.frames, f.newFrame.length = 0 →
      f.rawFrame.length = getFrameBytes st.fileHeader.majorVersion f.rawFrame)
    (hshrink : st.totalWriteBytes ≤ st.id3FrameBuffer.length)
    (hoff : 10 + st.id3FrameBuffer.length ≤ st.audioBufferOffset)
    (hfile : st.audioBufferOffset ≤ file.length) :
    (st.write file junk).2.length = file.length ∧
    (st.write file junk).2.drop (10 + st.id3FrameBuffer.length) =
      file.drop (10 + st.id3FrameBuffer.length) ∧
    (st.write file junk).2.drop st.audioBufferOffset = file.drop st.audioBufferOffset := by
  unfold Mp3TagData.write
  rw [if_neg (by simp [hdirty])]
  have hnotgt : ¬(st.totalWriteBytes > st.id3FrameBuffer.length) := by omega
  simp only [if_neg hnotgt, List.append_nil]
  set H := headerBytes (headerSetSize st.fileHeader
    (st.totalWriteBytes + (st.id3FrameBuffer.length - st.totalWriteBytes))) with hH
  set F := (List.map ID3Frame.writeData st.frames).flatten with hF
  set Z := List.replicate (st.id3FrameBuffer.length - st.totalWriteBytes) (0 : Nat) with hZ
  have hHlen : H.length = 10 := by rw [hH]; rfl
  have hFlen : F.length = st.totalWriteBytes := by
    rw [hF]
    exact writeData_length_sum st.fileHeader.majorVersion st.frames hwf
  have hZlen : Z.length = st.id3FrameBuffer.length - st.totalWriteBytes := by
    rw [hZ]
    simp
  have hOlen : (H ++ F ++ Z).length = 10 + st.id3FrameBuffer.length := by
    simp only [List.length_append, hHlen, hFlen, hZlen]
    omega
  have hdropeq : ((H ++ F ++ Z) ++ List.drop (H ++ F ++ Z).length file).drop
      (10 + st.id3FrameBuffer.length) = file.drop (10 + st.id3FrameBuffer.length) := by
    rw [← hOlen]
    rw [List.drop_left]
  refine ⟨?_, hdropeq, ?_⟩
  · simp only [List.length_append, List.length_drop, hOlen]
    omega
  · have harith : (10 + st.id3FrameBuffer.length) +
        (st.audioBufferOffset - (10 + st.id3FrameBuffer.length)) = st.audioBufferOffset := by
      omega
    calc ((H ++ F ++ Z) ++ List.drop (H ++ F ++ Z).length file).drop st.audioBufferOffset
        = (((H ++ F ++ Z) ++ List.drop (H ++ F ++ Z).length file).drop
            (10 + st.id3FrameBuffer.length)).drop
            (st.audioBufferOffset - (10 + st.id3FrameBuffer.length)) := by
          rw [List.drop_drop, harith]
      _ = (file.drop (10 + st.id3FrameBuffer.length)).drop
            (st.audioBufferOffset - (10 + st.id3FrameBuffer.length)) := by rw [hdropeq]
      _ = file.drop st.audioBufferOffset := by rw [List.drop_drop, harith]

theorem claim_C1_witness :
    Mp3TagData.totalWriteBytes ⟨⟨73, 68, 51, 4, 0, 0, 0, 0, 0, 12⟩, 22,
        List.replicate 12 0, [⟨[], List.replicate 12 7⟩], [], [], true⟩ ≤
      (List.replicate 12 (0 : Nat)).length ∧
    (Mp3TagData.write ⟨⟨73, 68, 51, 4, 0, 0, 0, 0, 0, 12⟩, 22,
        List.replicate 12 0, [⟨[], List.replicate 12 7⟩], [], [], true⟩
        (List.replicate 22 5 ++ [1, 2, 3]) (fun _ => 0)).2.drop 22 =
      (List.replicate 22 (5 : Nat) ++ [1, 2, 3]).drop 22 :=
  ⟨by decide,
   (claim_C1_write_preserves_audio
      ⟨⟨73, 68, 51, 4, 0, 0, 0, 0, 0, 12⟩, 22,
        List.replicate 12 0, [⟨[], List.replicate 12 7⟩], [], [], true⟩
      (List.replicate 22 5 ++ [1, 2, 3]) (fun _ => 0)
      rfl (by decide) (by decide) (by decide) (by decide)).2.2⟩

theorem leadsOf_length (needle hay : List Nat) (h : leadsOf needle hay = true) :
    needle.length ≤ hay.length := by
  induction needle generalizing hay with
  | nil => simp
  | cons a as ih =>
    cases hay with
    | nil => simp [leadsOf] at h
    | cons b bs =>
      simp only [leadsOf, Bool.and_eq_true] at h
      simp only [List.length_cons]
      exact Nat.succ_le_succ (ih bs h.2)

theorem leadsOf_take (needle l : List Nat) (k : Nat) (h : leadsOf needle l = true)
    (hk : needle.length ≤ k) : leadsOf needle (l.take k) = true := by
  induction needle generalizing l k with
  | nil => rfl
  | cons a as ih =>
    cases l with
    | nil => simp [leadsOf] at h
    | cons b bs =>
      cases k with
      | zero => simp at hk
      | succ k =>
        rw [List.take_succ_cons]
        simp only [leadsOf, Bool.and_eq_true] at h ⊢
        exact ⟨h.1, ih bs k h.2 (by simpa using hk)⟩

theorem leadsOf_of_take (needle l : List Nat) (k : Nat)
    (h : leadsOf needle (l.take k) = true) : leadsOf needle l = true := by
  induction needle generalizing l k with
  | nil => rfl
  | cons a as ih =>
    cases l with
    | nil => simp [List.take_nil, leadsOf] at h
    | cons b bs =>
      cases k with
      | zero => simp [leadsOf] at h
      | succ k =>
        rw [List.take_succ_cons] at h
        simp only [leadsOf, Bool.and_eq_true] at h ⊢
        exact ⟨h.1, ih bs k h.2⟩

theorem listFindSub_isSome_of_found (needle hay : List Nat) (i : Nat)
    (h : leadsOf needle (hay.drop i) = true) :
    (listFindSub needle hay).isSome = true := by
  induction hay generalizing i with
  | nil =>
    rw [List.drop_nil] at h
    simp [listFindSub, h]
  | cons b bs ih =>
    cases i with
    | zero =>
      rw [List.drop_zero] at h
      simp [listFindSub, h]
    | succ i =>
      rw [List.drop_succ_cons] at h
      simp only [listFindSub]
      by_cases hl : leadsOf needle (b :: bs) = true
      · simp [hl]
      · rw [if_neg hl]
        cases hf : listFindSub needle bs with
        | none =>
          have hi := ih i h
          rw [hf] at hi
          exact absurd hi (by simp)
        | some j => simp [hf]

theorem listFindSub_sound (needle hay : List Nat) (j : Nat)
    (h : listFindSub needle hay = some j) : leadsOf needle (hay.drop j) = true := by
  induction hay generalizing j with
  | nil =>
    simp only [listFindSub] at h
    by_cases hl : leadsOf needle [] = true
    · rw [if_pos hl] at h
      injection h with hj
      rw [← hj, List.drop_nil]
      exact hl
    · rw [if_neg hl] at h
      exact absurd h (by simp)
  | cons b bs ih =>
    simp only [listFindSub] at h
    by_cases hl : leadsOf needle (b :: bs) = true
    · rw [if_pos hl] at h
      injection h with hj
      rw [← hj, List.drop_zero]
      exact hl
    · rw [if_neg hl] at h
      cases hf : listFindSub needle bs with
      | none =>
        rw [hf] at h
        exact absurd h (by simp)
      | some j' =>
        rw [hf] at h
        simp only [Option.map_some'] at h
        injection h with hj
        rw [← hj, List.drop_succ_cons]
        exact ih j' hf

theorem apeLoop_isSome_of_covered (file : List Nat) :
    ∀ {filePos readLength s : Nat}, ApeCovered file.length filePos readLength s →
      apeSigAt file s → (apeLoop file filePos readLength).isSome = true := by
  intro p rl s hcov
  induction hcov with
  | @here p rl s hp hps hsrl hsL =>
    intro hocc
    rw [apeLoop.eq_def, dif_neg hp]
    have hfind : (listFindSub apeTagSig ((file.drop p).take rl)).isSome = true := by
      apply listFindSub_isSome_of_found apeTagSig _ (s - p)
      rw [List.drop_take, List.drop_drop]
      have hps' : p + (s - p) = s := by omega
      rw [hps']
      apply leadsOf_take _ _ _ hocc
      show apeTagSig.length ≤ rl - (s - p)
      have h8 : apeTagSig.length = 8 := rfl
      omega
    cases hf : listFindSub apeTagSig ((file.drop p).take rl) with
    | none =>
      rw [hf] at hfind
      exact absurd hfind (by simp)
    | some j => rfl
  | @there p rl s p' hp hpe hcov ih =>
    intro hocc
    rw [apeLoop.eq_def, dif_neg hp]
    cases hf : listFindSub apeTagSig ((file.drop p).take rl) with
    | some j => rfl
    | none =>
      have hrec := ih hocc
      rw [hpe] at hrec
      show (apeLoop file (p - 4096) (4096 + 8)).isSome = true
      exact hrec

theorem apeCovered_chain (L s : Nat) :
    ∀ (k p rl : Nat), 0 < p - 4096 * k → p - 4096 * k ≤ s → s + 8 ≤ L → s + 8 ≤ p + rl →
      ApeCovered L p rl s := by
  intro k
  induction k with
  | zero =>
    intro p rl h1 h2 h3 h4
    exact .here (by omega) (by omega) h4 h3
  | succ k ih =>
    intro p rl h1 h2 h3 h4
    by_cases hps : p ≤ s
    · exact .here (by omega) hps h4 h3
    · push_neg at hps
      refine .there (by omega) rfl (ih (p - 4096) 4104 (by omega) (by omega) h3 (by omega))

theorem findApe_small (file : List Nat) (h : file.length ≤ 4096) :
    findApeHeaderOffset file = none := by
  simp only [findApeHeaderOffset]
  have h0 : (if 4096 > file.length then 0 else file.length - 4096) = 0 := by
    by_cases h4 : 4096 > file.length
    · rw [if_pos h4]
    · rw [if_neg h4]
      omega
  rw [h0, apeLoop.eq_def, dif_pos rfl]

theorem apeLoop_sound (file : List Nat) :
    ∀ (p rl off : Nat), apeLoop file p rl = some off → apeSigAt file off := by
  intro p
  induction p using Nat.strong_induction_on with
  | _ p ih =>
    intro rl off h
    rw [apeLoop.eq_def] at h
    by_cases hp : p = 0
    · rw [dif_pos hp] at h
      exact absurd h (by simp)
    · rw [dif_neg hp] at h
      cases hf : listFindSub apeTagSig ((file.drop p).take rl) with
      | none =>
        rw [hf] at h
        exact ih (p - 4096) (by omega) (4096 + 8) off h
      | some j =>
        rw [hf] at h
        have hoff : p + j = off := Option.some.inj h
        have hlead := listFindSub_sound apeTagSig ((file.drop p).take rl) j hf
        rw [List.drop_take, List.drop_drop] at hlead
        have hsig : leadsOf apeTagSig (file.drop (p + j)) = true :=
          leadsOf_of_take apeTagSig (file.drop (p + j)) (rl - j) hlead
        rw [hoff] at hsig
        exact hsig

theorem findApe_complete (file : List Nat) (s : Nat)
    (hL : 4096 < file.length) (hocc : apeSigAt file s)
    (hs : (file.length - 1) % 4096 + 1 ≤ s) :
    (findApeHeaderOffset file).isSome = true := by
  have hs8 : s + 8 ≤ file.length := by
    have hlen := leadsOf_length apeTagSig (file.drop s) hocc
    have h8 : apeTagSig.length = 8 := rfl
    rw [h8, List.length_drop] at hlen
    omega
  simp only [findApeHeaderOffset]
  rw [if_neg (by omega)]
  apply apeLoop_isSome_of_covered file _ hocc
  exact apeCovered_chain file.length s ((file.length - 1) / 4096 - 1) (file.length - 4096)
    4096 (by omega) (by omega) hs8 (by omega)

/-- Claim C2 counterexample: the signature is NOT found wherever it
occurs, and not-found is reported without the search ever reaching file
offset 0.  An 8-byte file that consists solely of "APETAGEX" contains
the signature at offset 0, yet `FindApeHeaderOffset` reports not-found:
for any file of size ≤ 4096 the starting position is already 0 and the
loop (whose condition is `filePos > 0`) never examines a single byte. -/
theorem claim_C2_counterexample :
    apeSigAt apeTagSig 0 ∧ findApeHeaderOffset apeTagSig = none :=
  ⟨by decide, findApe_small apeTagSig (by decide)⟩

/-- Claim C2 (amended): the backward chunked search never examines the
chunk whose window would have to start at offset 0 — every file of size
≤ 4096 is reported not-found regardless of content, and in larger files
only signatures at offsets `s ≥ (fileSize - 1) % 4096 + 1` (the smallest
positive position of the backward 4096-step chain) are reachable.
Within that range the search is exact: any reported offset really
carries the signature, and any signature at such an offset — including
one that straddles a chunk boundary, e.g. placed 1 byte before it — is
found.  Not-found is reported once the backward position reaches file
offset 0, with the offset-0 window never read. -/
theorem claim_C2_findApe_amended :
    (∀ file : List Nat, file.length ≤ 4096 → findApeHeaderOffset file = none) ∧
    (∀ (file : List Nat) (off : Nat),
      findApeHeaderOffset file = some off → apeSigAt file off) ∧
    (∀ (file : List Nat) (s : Nat), 4096 < file.length → apeSigAt file s →
      (file.length - 1) % 4096 + 1 ≤ s → (findApeHeaderOffset file).isSome = true) := by
  refine ⟨findApe_small, ?_, findApe_complete⟩
  intro file off h
  simp only [findApeHeaderOffset] at h
  exact apeLoop_sound file _ _ off h

theorem leadsOf_append_self (l r : List Nat) : leadsOf l (l ++ r) = true := by
  induction l with
  | nil => rfl
  | cons a t ih => simp [leadsOf, ih]

theorem claim_C2_witness :
    (4096 < (0 :: apeTagSig ++ List.replicate 4088 0).length ∧
      apeSigAt (0 :: apeTagSig ++ List.replicate 4088 0) 1 ∧
      ((0 :: apeTagSig ++ List.replicate 4088 0).length - 1) % 4096 + 1 ≤ 1 ∧
      (findApeHeaderOffset (0 :: apeTagSig ++ List.replicate 4088 0)).isSome = true) ∧
    (4096 < (List.replicate 4096 0 ++ (apeTagSig ++ List.replicate 4089 0)).length ∧
      apeSigAt (List.replicate 4096 0 ++ (apeTagSig ++ List.replicate 4089 0)) 4096 ∧
      ((List.replicate 4096 0 ++ (apeTagSig ++ List.replicate 4089 0)).length - 1) % 4096 + 1
        ≤ 4096 ∧
      (findApeHeaderOffset
        (List.replicate 4096 0 ++ (apeTagSig ++ List.replicate 4089 0))).isSome = true) := by
  have hsig1 : apeSigAt (0 :: apeTagSig ++ List.replicate 4088 0) 1 :=
    leadsOf_append_self apeTagSig (List.replicate 4088 0)
  have hsig2 : apeSigAt (List.replicate 4096 0 ++ (apeTagSig ++ List.replicate 4089 0)) 4096 := by
    unfold apeSigAt
    have hdl := List.drop_left (List.replicate 4096 (0 : Nat))
      (apeTagSig ++ List.replicate 4089 0)
    rw [List.length_replicate] at hdl
    rw [hdl]
    exact leadsOf_append_self apeTagSig (List.replicate 4089 0)
  have hlen1 : (0 :: apeTagSig ++ List.replicate 4088 0).length = 4097 := by
    simp only [apeTagSig, List.length_append, List.length_cons, List.length_replicate,
      List.length_nil]
  have hlen2 : (List.replicate 4096 0 ++ (apeTagSig ++ List.replicate 4089 0)).length = 8193 := by
    simp only [apeTagSig, List.length_append, List.length_cons, List.length_replicate,
      List.length_nil]
  refine ⟨⟨by rw [hlen1]; norm_num, hsig1, by rw [hlen1], ?_⟩,
          ⟨by rw [hlen2]; norm_num, hsig2, by rw [hlen2]; norm_num, ?_⟩⟩
  · exact claim_C2_findApe_amended.2.2 (0 :: apeTagSig ++ List.replicate 4088 0) 1
      (by rw [hlen1]; norm_num) hsig1 (by rw [hlen1])
  · exact claim_C2_findApe_amended.2.2
      (List.replicate 4096 0 ++ (apeTagSig ++ List.replicate 4089 0)) 4096
      (by rw [hlen2]; norm_num) hsig2 (by rw [hlen2]; norm_num)

theorem getD_set_eq {α : Type} (l : List α) (n : Nat) (a d : α) (h : n < l.length) :
    (l.set n a).getD n d = a := by
  simp [List.getD_eq_getElem?_getD, List.getElem?_set_self, h]

theorem getD_set_ne {α : Type} (l : List α) (n m : Nat) (a d : α) (h : n ≠ m) :
    (l.set n a).getD m d = l.getD m d := by
  simp [List.getD_eq_getElem?_getD, List.getElem?_set_ne h]

theorem find?_of_filter_eq_singleton (l : List Nat) (q : Nat → Bool) (p : Nat)
    (h : l.filter q = [p]) : l.find? q = some p := by
  induction l with
  | nil => simp at h
  | cons a t ih =>
    by_cases ha : q a = true
    · rw [List.filter_cons_of_pos ha] at h
      injection h with h1 h2
      rw [List.find?_cons_of_pos _ ha, h1]
    · have ha' : q a = false := by
        cases hqa : q a
        · rfl
        · exact absurd hqa ha
      rw [List.filter_cons_of_neg (by rw [ha'] ; exact Bool.false_ne_true)] at h
      rw [List.find?_cons_of_neg _ (by rw [ha'] ; exact Bool.false_ne_true)]
      exact ih h

theorem eq_singleton_of_mem_of_length_le (l : List Nat) (p : Nat) (hm : p ∈ l)
    (hl : l.length ≤ 1) : l = [p] := by
  cases l with
  | nil => simp at hm
  | cons a t =>
    cases t with
    | nil =>
      simp at hm
      rw [hm]
    | cons b u => simp at hl

theorem idOf4_build (t : Mp3FrameType) (ver : Nat) (s : List Nat)
    (ht : isTextFrameType t = true) :
    [(buildTextFrame t ver s).getD 0 0, (buildTextFrame t ver s).getD 1 0,
     (buildTextFrame t ver s).getD 2 0, (buildTextFrame t ver s).getD 3 0] =
      frameTypeID t := by
  obtain ⟨a, b, c, d, hid⟩ := frameTypeID_four t ht
  obtain ⟨e0, e1, e2, e3, henc⟩ :=
    list_len4 _ (encodeFrameSize_length ver (textFrameGetFrameSize s - frameHeaderSize))
  have hchain : buildTextFrame t ver s =
      a :: b :: c :: d :: e0 :: e1 :: e2 :: e3 :: 0 :: 0 :: 0 :: s := by
    simp [buildTextFrame, hid, henc]
  rw [hchain, hid]
  rfl

theorem isFrameID_build (r : List Nat) (t : Mp3FrameType) (ver : Nat) (s : List Nat)
    (ht : isTextFrameType t = true) :
    (ID3Frame.mk r (buildTextFrame t ver s)).isFrameID t = true := by
  have hbig : 1 < (ID3Frame.mk r (buildTextFrame t ver s)).newFrame.length := by
    show 1 < (buildTextFrame t ver s).length
    rw [buildTextFrame_length t ver s ht]
    omega
  unfold ID3Frame.isFrameID
  rw [frameIDBytes_of_newFrame_big _ hbig]
  show ([(buildTextFrame t ver s).getD 0 0, (buildTextFrame t ver s).getD 1 0,
      (buildTextFrame t ver s).getD 2 0, (buildTextFrame t ver s).getD 3 0] ==
    frameTypeID t) = true
  rw [idOf4_build t ver s ht]
  exact beq_self_eq_true _

theorem frameTypeID_ne_del (t : Mp3FrameType) : frameTypeID t ≠ [68, 69, 76, 32] := by
  cases t <;> decide

theorem isFrameID_flagToDelete (f : ID3Frame) (t : Mp3FrameType) :
    (f.flagToDelete).isFrameID t = false := by
  unfold ID3Frame.isFrameID
  rw [frameIDBytes_of_delete]
  · cases hb : ([68, 69, 76, 32] == frameTypeID t)
    · rfl
    · exact absurd (beq_iff_eq.mp hb).symm (frameTypeID_ne_del t)
  · show (resizeList f.newFrame 1).length = 1
    simp [resizeList]
    omega

theorem setText_spec (st : Mp3TagData) (t : Mp3FrameType) (s : List Nat)
    (ht : isTextFrameType t = true) (hs : s ≠ [])
    (hwf : ∀ p ∈ st.textFrames, p < st.frames.length)
    (hcount : (st.textFrames.filter
      (fun p => (st.frames.getD p emptyID3Frame).isFrameID t)).length ≤ 1) :
    (st.setText t s).fileHeader = st.fileHeader ∧
    (st.setText t s).isDirty = true ∧
    (∀ q ∈ (st.setText t s).textFrames, q < (st.setText t s).frames.length) ∧
    (∃ p, (st.setText t s).textFrames.filter
        (fun q => ((st.setText t s).frames.getD q emptyID3Frame).isFrameID t) = [p] ∧
      ((st.setText t s).frames.getD p emptyID3Frame).newFrame =
        buildTextFrame t st.fileHeader.majorVersion s) ∧
    ((st.getTextFrameReferencePos t).isSome = true →
      (st.setText t s).frames.length = st.frames.length) := by
  have hs0 : ¬(s.length = 0) := by simpa [List.length_eq_zero] using hs
  unfold Mp3TagData.setText
  rw [if_neg hs0]
  cases hfind : st.getTextFrameReferencePos t with
  | some p1 =>
    have hfind' : st.textFrames.find?
        (fun p => (st.frames.getD p emptyID3Frame).isFrameID t) = some p1 := hfind
    have hp1pred : (st.frames.getD p1 emptyID3Frame).isFrameID t = true := by
      have := List.find?_some hfind'
      simpa using this
    have hp1mem : p1 ∈ st.textFrames := List.mem_of_find?_eq_some hfind'
    have hp1lt : p1 < st.frames.length := hwf p1 hp1mem
    dsimp only
    refine ⟨rfl, rfl, ?_, ⟨p1, ?_, ?_⟩, fun _ => ?_⟩
    · intro q hq
      simp only [List.length_set]
      exact hwf q hq
    · have hfeq : st.textFrames.filter (fun q => ((st.frames.set p1
          { st.frames.getD p1 emptyID3Frame with
            newFrame := buildTextFrame t st.fileHeader.majorVersion s }).getD q
            emptyID3Frame).isFrameID t) =
          st.textFrames.filter (fun q => (st.frames.getD q emptyID3Frame).isFrameID t) := by
        apply List.filter_congr
        intro q hq
        by_cases hq1 : q = p1
        · subst hq1
          rw [getD_set_eq _ _ _ _ hp1lt, hp1pred]
          exact isFrameID_build _ t _ s ht
        · rw [getD_set_ne _ _ _ _ _ (fun h => hq1 h.symm)]
      rw [hfeq]
      exact eq_singleton_of_mem_of_length_le _ _
        (List.mem_filter.mpr ⟨hp1mem, hp1pred⟩) hcount
    · rw [getD_set_eq _ _ _ _ hp1lt]
    · simp only [List.length_set]
  | none =>
    have hfind' : st.textFrames.find?
        (fun p => (st.frames.getD p emptyID3Frame).isFrameID t) = none := hfind
    have hnone := List.find?_eq_none.mp hfind'
    dsimp only
    have hfr : (st.frames ++ [emptyID3Frame]).set st.frames.length
        { emptyID3Frame with newFrame := buildTextFrame t st.fileHeader.majorVersion s } =
        st.frames ++ [{ emptyID3Frame with
          newFrame := buildTextFrame t st.fileHeader.majorVersion s }] :=
      set_append_singleton _ _ _
    refine ⟨rfl, rfl, ?_, ⟨st.frames.length, ?_, ?_⟩, fun hcontra => ?_⟩
    · intro q hq
      rw [hfr, List.length_append]
      rcases List.mem_append.mp hq with hq | hq
      · have := hwf q hq
        simp only [List.length_cons, List.length_nil]
        omega
      · simp only [List.mem_singleton] at hq
        subst hq
        simp only [List.length_cons, List.length_nil]
        omega
    · rw [hfr]
      rw [List.filter_append]
      have hold : st.textFrames.filter (fun q => (((st.frames ++
          [{ emptyID3Frame with
            newFrame := buildTextFrame t st.fileHeader.majorVersion s }]).getD q
            emptyID3Frame).isFrameID t)) = [] := by
        rw [List.filter_eq_nil_iff]
        intro q hq
        rw [List.getD_append _ _ _ _ (hwf q hq)]
        exact hnone q hq
      rw [hold]
      have hnew : ([st.frames.length] : List Nat).filter
          (fun q => (((st.frames ++ [{ emptyID3Frame with
            newFrame := buildTextFrame t st.fileHeader.majorVersion s }]).getD q
            emptyID3Frame).isFrameID t)) = [st.frames.length] := by
        rw [List.filter_cons_of_pos]
        · rfl
        · rw [getD_append_singleton]
          exact isFrameID_build _ t _ s ht
      rw [hnew, List.nil_append]
    · rw [hfr, getD_append_singleton]
    · exact absurd hcontra (by simp)

theorem getText_deleteTextFrame_of_unique (st : Mp3TagData) (t : Mp3FrameType) (p1 : Nat)
    (hfilter : st.textFrames.filter
      (fun p => (st.frames.getD p emptyID3Frame).isFrameID t) = [p1]) :
    (st.deleteTextFrame t).getText t = [] := by
  have hfind : st.textFrames.find?
      (fun p => (st.frames.getD p emptyID3Frame).isFrameID t) = some p1 :=
    find?_of_filter_eq_singleton _ _ _ hfilter
  have hfind0 : st.getTextFrameReferencePos t = some p1 := hfind
  have hp1pred : (st.frames.getD p1 emptyID3Frame).isFrameID t = true := by
    have := List.find?_some hfind
    simpa using this
  have hcnt : st.textFrames.count p1 = 1 := by
    have h1 : (st.textFrames.filter
        (fun p => (st.frames.getD p emptyID3Frame).isFrameID t)).count p1 =
        st.textFrames.count p1 := List.count_filter hp1pred
    rw [hfilter] at h1
    simpa using h1.symm
  have hnotmem : p1 ∉ st.textFrames.erase p1 := by
    rw [← List.count_eq_zero, List.count_erase_self, hcnt]
  have hnone : (st.textFrames.erase p1).find?
      (fun q => ((st.frames.set p1
        (st.frames.getD p1 emptyID3Frame).flagToDelete).getD q
        emptyID3Frame).isFrameID t) = none := by
    rw [List.find?_eq_none]
    intro q hq
    have hq1 : q ≠ p1 := fun h => hnotmem (h ▸ hq)
    rw [getD_set_ne _ _ _ _ _ (fun h => hq1 h.symm)]
    intro hqp
    have hqf : q ∈ st.textFrames.filter
        (fun p => (st.frames.getD p emptyID3Frame).isFrameID t) :=
      List.mem_filter.mpr ⟨List.mem_of_mem_erase hq, hqp⟩
    rw [hfilter] at hqf
    exact hq1 (by simpa using hqf)
  simp only [Mp3TagData.deleteTextFrame, Mp3TagData.getText,
    Mp3TagData.getTextFrameReferencePos, hfind]
  rw [hnone]

/-- Claim C6, counterexample to the literal reading: starting from an empty
version-4 tag store, SetText(title, [65]) then SetText(title, [66, 0])
replaces the single title frame, but GetText(title) afterwards returns
[66], not the stored string [66, 0]: decoding strips trailing NUL bytes,
so GetText(t) does not literally return s2 for every non-empty s2. -/
theorem claim_C6_counterexample :
    (((⟨⟨73, 68, 51, 4, 0, 0, 0, 0, 0, 0⟩, 10, [], [], [], [], false⟩ :
      Mp3TagData).setText Mp3FrameType.title [65]).setText
        Mp3FrameType.title [66, 0]).getText Mp3FrameType.title ≠ [66, 0] := by
  decide

/-- Claim C6, amended: for any text frame type t and any store whose text
index is in bounds and holds at most one frame of type t, with s1 non-empty:
SetText(t, s1) followed by SetText(t, []) removes the frame, so GetText(t)
returns the empty string; and SetText(t, s1) followed by SetText(t, s2)
(s2 non-empty) leaves exactly one frame of type t reachable through the
text index, and GetText(t) returns s2 provided s2 has no trailing NUL byte
(decoding strips trailing NULs) and 1 + s2.length fits in 28 bits (the
frame-size encoding). -/
theorem claim_C6_setText_amended (st : Mp3TagData) (t : Mp3FrameType) (s1 s2 : List Nat)
    (ht : isTextFrameType t = true) (hs1 : s1 ≠ []) (hs2 : s2 ≠ [])
    (hwf : ∀ p ∈ st.textFrames, p < st.frames.length)
    (hcount : (st.textFrames.filter
      (fun p => (st.frames.getD p emptyID3Frame).isFrameID t)).length ≤ 1)
    (hfit : 1 + s2.length < 2 ^ 28) (htrail : s2.getLast? ≠ some 0) :
    ((st.setText t s1).setText t []).getText t = [] ∧
    (∃ p, ((st.setText t s1).setText t s2).textFrames.filter
        (fun q => (((st.setText t s1).setText t s2).frames.getD q
          emptyID3Frame).isFrameID t) = [p]) ∧
    ((st.setText t s1).setText t s2).getText t = s2 := by
  obtain ⟨hhdr1, -, hwf1, ⟨p1, hfilter1, -⟩, -⟩ := setText_spec st t s1 ht hs1 hwf hcount
  have hcount1 : ((st.setText t s1).textFrames.filter
      (fun p => ((st.setText t s1).frames.getD p emptyID3Frame).isFrameID t)).length ≤ 1 := by
    rw [hfilter1]
    exact le_refl 1
  have hdel : (st.setText t s1).setText t [] = (st.setText t s1).deleteTextFrame t := rfl
  obtain ⟨hhdr2, -, -, ⟨p2, hfilter2, hnew2⟩, -⟩ :=
    setText_spec (st.setText t s1) t s2 ht hs2 hwf1 hcount1
  refine ⟨?_, ⟨p2, hfilter2⟩, ?_⟩
  · rw [hdel]
    exact getText_deleteTextFrame_of_unique (st.setText t s1) t p1 hfilter1
  · have href : ((st.setText t s1).setText t s2).getTextFrameReferencePos t = some p2 :=
      find?_of_filter_eq_singleton _ _ _ hfilter2
    have hbig : 1 < (((st.setText t s1).setText t s2).frames.getD p2
        emptyID3Frame).newFrame.length := by
      rw [hnew2, buildTextFrame_length t _ s2 ht]
      omega
    have hdata : (((st.setText t s1).setText t s2).frames.getD p2 emptyID3Frame).getData =
        buildTextFrame t (st.setText t s1).fileHeader.majorVersion s2 := by
      rw [getData_of_newFrame_big _ hbig, hnew2]
    have hgt : ((st.setText t s1).setText t s2).getText t =
        textFrameGetText ((st.setText t s1).setText t s2).fileHeader.majorVersion
          (((st.setText t s1).setText t s2).frames.getD p2 emptyID3Frame).getData := by
      unfold Mp3TagData.getText
      rw [href]
    rw [hgt, hdata, hhdr2, textFrameGetText_build t _ s2 ht hfit,
      rstrip0_no_trailing s2 htrail]

/-- Claim C6, witness: the amended theorem instantiated on an empty
version-4 store with t = title, s1 = [65], s2 = [66]. -/
theorem claim_C6_witness :
    (((⟨⟨73, 68, 51, 4, 0, 0, 0, 0, 0, 0⟩, 10, [], [], [], [], false⟩ :
      Mp3TagData).setText Mp3FrameType.title [65]).setText
        Mp3FrameType.title []).getText Mp3FrameType.title = [] ∧
    (∃ p, (((⟨⟨73, 68, 51, 4, 0, 0, 0, 0, 0, 0⟩, 10, [], [], [], [], false⟩ :
      Mp3TagData).setText Mp3FrameType.title [65]).setText
        Mp3FrameType.title [66]).textFrames.filter
        (fun q => ((((⟨⟨73, 68, 51, 4, 0, 0, 0, 0, 0, 0⟩, 10, [], [], [], [], false⟩ :
          Mp3TagData).setText Mp3FrameType.title [65]).setText
            Mp3FrameType.title [66]).frames.getD q
          emptyID3Frame).isFrameID Mp3FrameType.title) = [p]) ∧
    (((⟨⟨73, 68, 51, 4, 0, 0, 0, 0, 0, 0⟩, 10, [], [], [], [], false⟩ :
      Mp3TagData).setText Mp3FrameType.title [65]).setText
        Mp3FrameType.title [66]).getText Mp3FrameType.title = [66] :=
  claim_C6_setText_amended
    ⟨⟨73, 68, 51, 4, 0, 0, 0, 0, 0, 0⟩, 10, [], [], [], [], false⟩
    Mp3FrameType.title [65] [66]
    (by decide) (by decide) (by decide) (by simp) (by decide) (by decide) (by decide)
